import Mathlib

/-!
Verification development for the wallet-analyzer normalization and
analytics layers (`src/lib/analyze-wallet.ts`, `src/lib/wallet-history.ts`,
`src/lib/providers/coinbase.ts`, `src/lib/pricing/coingecko.ts`).

Modelling conventions:
* JavaScript numbers are modelled as rationals (`ℚ`); every modelled number
  is finite, and `Number.isFinite` checks are therefore vacuously true.
  String-to-number conversion (`Number(...)`, `Number.parseFloat(...)`) is
  modelled by explicit decimal parsers restricted to plain decimal
  literals; other forms (exponents, hex) parse to `none`, matching the
  `NaN`-handling paths of the source.
* A loosely typed provider field (`string | number | null`, or `unknown`
  inspected with `typeof`) is modelled as `Option JsPrim`; `none` covers
  `null`, `undefined` and non-primitive values alike.
* Fields that the source reads as integral exponents (`decimals`) are
  modelled as `Option Int`.
-/

namespace WalletAnalyzer

/-- A JavaScript primitive held in a loosely typed provider field: a finite
number or a string.  Absent, `null` and non-primitive values are modelled
by `Option.none` at each use site. -/
inductive JsPrim where
  | num (q : ℚ)
  | str (s : String)
deriving DecidableEq, Repr

/-- JavaScript `toLowerCase()` (ASCII range; pointwise on characters). -/
def jsToLower (s : String) : String :=
  ⟨s.data.map Char.toLower⟩

/-- JavaScript `toUpperCase()` (ASCII range; pointwise on characters). -/
def jsToUpper (s : String) : String :=
  ⟨s.data.map Char.toUpper⟩

/-- JavaScript `trim()`: strip leading and trailing whitespace. -/
def jsTrim (s : String) : String :=
  ⟨((s.data.dropWhile Char.isWhitespace).reverse.dropWhile
      Char.isWhitespace).reverse⟩

/-- JavaScript `includes(c)` for a single character. -/
def strContains (s : String) (c : Char) : Bool :=
  s.data.contains c

/-- Numeric value of a list of decimal digit characters. -/
def digitsVal (cs : List Char) : ℕ :=
  cs.foldl (fun a c => a * 10 + (c.toNat - 48)) 0

/-- Core of the strict decimal parser (`Number(...)` semantics on a
trimmed, sign-stripped literal): digits, an optional dot, digits; at least
one digit overall. -/
def parseDecimalCore (cs : List Char) : Option ℚ :=
  let intPart := cs.takeWhile Char.isDigit
  let rest := cs.dropWhile Char.isDigit
  match rest with
  | [] => if intPart.isEmpty then none else some (digitsVal intPart : ℚ)
  | '.' :: fracPart =>
      if fracPart.all Char.isDigit ∧ ¬(intPart.isEmpty ∧ fracPart.isEmpty) then
        some ((digitsVal intPart : ℚ)
          + (digitsVal fracPart : ℚ) / (10 : ℚ) ^ fracPart.length)
      else none
  | _ => none

/-- Optional sign in front of a strict decimal literal. -/
def parseSigned (cs : List Char) : Option ℚ :=
  match cs with
  | '-' :: rest => (parseDecimalCore rest).map (fun q => -q)
  | '+' :: rest => parseDecimalCore rest
  | _ => parseDecimalCore cs

/-- Model of JavaScript `Number(s)` for string inputs (restricted to plain
decimal literals; `""` converts to `0`, anything unparseable is `NaN`,
modelled as `none`). -/
def parseNumberJs (s : String) : Option ℚ :=
  let t := jsTrim s
  if t = "" then some 0 else parseSigned t.toList

/-- Core of the prefix decimal parser (`Number.parseFloat` semantics):
longest digit prefix, optional dot and further digits; `none` when no digit
is found. -/
def parseFloatCore (cs : List Char) : Option ℚ :=
  let intPart := cs.takeWhile Char.isDigit
  let rest := cs.dropWhile Char.isDigit
  let fracPart :=
    match rest with
    | '.' :: more => more.takeWhile Char.isDigit
    | _ => []
  if intPart.isEmpty ∧ fracPart.isEmpty then none
  else
    some ((digitsVal intPart : ℚ)
      + (digitsVal fracPart : ℚ) / (10 : ℚ) ^ fracPart.length)

/-- Model of JavaScript `Number.parseFloat(s)` (plain decimal prefixes;
`NaN` is modelled as `none`). -/
def parseFloatJs (s : String) : Option ℚ :=
  match (jsTrim s).toList with
  | '-' :: rest => (parseFloatCore rest).map (fun q => -q)
  | '+' :: rest => parseFloatCore rest
  | cs => parseFloatCore cs

/-- Shared helper `toNumber` of `analyze-wallet.ts` and
`wallet-history.ts`: a finite number passes through, a non-blank string is
parsed, everything else is `null`. -/
def toNumber : Option JsPrim → Option ℚ
  | some (.num q) => some q
  | some (.str s) => if jsTrim s = "" then none else parseNumberJs s
  | none => none

/-- Model of the JavaScript `??` chain over possibly absent fields: the
first present value wins. -/
def jsCoalesce {α : Type} : List (Option α) → Option α
  | [] => none
  | some a :: _ => some a
  | none :: rest => jsCoalesce rest

/-- `Math.pow(10, decimals)` for an integral exponent. -/
def pow10 (z : ℤ) : ℚ := (10 : ℚ) ^ z

/-- A `CoinbaseValue` / `CoinbaseValueLike` object: the union of the value
object fields read by `analyze-wallet.ts` and `wallet-history.ts`. -/
structure CoinbaseValue where
  amount : Option JsPrim := none
  amount_decimal : Option JsPrim := none
  amount_usd : Option JsPrim := none
  usd_value : Option JsPrim := none
  fiat_value : Option JsPrim := none
  amount_usd_value : Option JsPrim := none
  decimals : Option Int := none
  symbol : Option String := none
deriving DecidableEq, Repr

/-- The `asset` sub-object of a Coinbase balance resource. -/
structure CoinbaseAsset where
  address : Option String := none
  asset_id : Option String := none
  symbol : Option String := none
  decimals : Option Int := none
  token_type : Option String := none
  is_verified : Option Bool := none
  is_scam : Option Bool := none
deriving DecidableEq, Repr

/-- The `quantity` sub-object of a Coinbase balance resource. -/
structure CoinbaseQuantity where
  amount : Option JsPrim := none
  decimals : Option Int := none
  amount_decimal : Option JsPrim := none
deriving DecidableEq, Repr

/-- The `native_balance` sub-object of a Coinbase balance resource. -/
structure CoinbaseNativeBalance where
  amount : Option JsPrim := none
  decimals : Option Int := none
deriving DecidableEq, Repr

/-- `CoinbaseBalanceResource` of `providers/coinbase.ts`. -/
structure CoinbaseBalanceResource where
  network_id : Option String := none
  asset : Option CoinbaseAsset := none
  amount : Option JsPrim := none
  quantity : Option CoinbaseQuantity := none
  native_balance : Option CoinbaseNativeBalance := none
  value : Option CoinbaseValue := none
  native_value : Option CoinbaseValue := none
  change_24h : Option CoinbaseValue := none
  value_usd : Option JsPrim := none
deriving DecidableEq, Repr

namespace CoinGecko

/-- `buildPriceKey` of `pricing/coingecko.ts`.  The source hardcodes the
chain component to `"ethereum"` (marked `// temporary` in the source)
instead of canonicalizing the balance's own `network_id`. -/
def buildPriceKey (balance : CoinbaseBalanceResource) : Option String :=
  let chain := "ethereum"
  if chain = "" then none
  else
    match balance.asset.bind (·.address) with
    | some address =>
        if address = "" then some ("native:" ++ chain)
        else some ("token:" ++ chain ++ ":" ++ jsToLower address)
    | none => some ("native:" ++ chain)

end CoinGecko

namespace AnalyzeWallet

/-- `STABLE_SYMBOLS` of `analyze-wallet.ts`. -/
def STABLE_SYMBOLS : List String :=
  ["USDC", "USDT", "DAI", "TUSD", "USDP", "USDD", "BUSD",
   "LUSD", "FRAX", "GUSD", "EURS", "USDN", "MIM", "CUSDC"]

/-- `VALUE_EPSILON` of `analyze-wallet.ts`. -/
def VALUE_EPSILON : ℚ := 0.0001

/-- `MAX_UNVERIFIED_TOKEN_VALUE` of `analyze-wallet.ts`. -/
def MAX_UNVERIFIED_TOKEN_VALUE : ℚ := 10000

/-- `MAX_UNIT_PRICE_FOR_UNVERIFIED` of `analyze-wallet.ts`. -/
def MAX_UNIT_PRICE_FOR_UNVERIFIED : ℚ := 5000

/-- Risk classification values. -/
inductive RiskLevel where
  | Conservative
  | Moderate
  | Aggressive
deriving DecidableEq, Repr

/-- Insight tones. -/
inductive Tone where
  | positive
  | warning
  | neutral
deriving DecidableEq, Repr

/-- `AnalysisInsight` of `analyze-wallet.ts`. -/
structure AnalysisInsight where
  title : String
  detail : String
  tone : Tone
deriving DecidableEq, Repr

/-- `ExtendedAnalysisToken` of `analyze-wallet.ts` (an `AnalysisToken`
plus the internal `valueUsd24h` field). -/
structure AnalysisToken where
  symbol : String
  protocol : String
  valueUsd : ℚ
  change24h : ℚ
  allocationPct : ℚ
  amount : ℚ
  decimals : ℤ
  valueUsd24h : Option ℚ := none
deriving DecidableEq, Repr

/-- `CHAIN_ALIAS_MAP` of `analyze-wallet.ts`. -/
def CHAIN_ALIAS_MAP : List (String × String) :=
  [("eth", "eth"), ("ethereum", "eth"), ("1", "eth"), ("eip155:1", "eth"),
   ("ethereum-mainnet", "eth"),
   ("base", "base"), ("8453", "base"), ("eip155:8453", "base"),
   ("base-mainnet", "base"),
   ("polygon", "polygon"), ("137", "polygon"), ("eip155:137", "polygon"),
   ("polygon-mainnet", "polygon"),
   ("arbitrum", "arbitrum"), ("42161", "arbitrum"),
   ("eip155:42161", "arbitrum"), ("arbitrum-one", "arbitrum"),
   ("optimism", "optimism"), ("10", "optimism"), ("eip155:10", "optimism"),
   ("optimism-mainnet", "optimism"),
   ("bsc", "bsc"), ("56", "bsc"), ("eip155:56", "bsc"),
   ("bnb-mainnet", "bsc"),
   ("avalanche", "avalanche"), ("43114", "avalanche"),
   ("eip155:43114", "avalanche"),
   ("fantom", "fantom"), ("250", "fantom"), ("eip155:250", "fantom"),
   ("zksync", "zksync"), ("324", "zksync"), ("eip155:324", "zksync"),
   ("zksync-era", "zksync"),
   ("linea", "linea"), ("1101", "linea"), ("eip155:1101", "linea"),
   ("scroll", "scroll"), ("534352", "scroll"), ("eip155:534352", "scroll"),
   ("metis", "metis"), ("1088", "metis"), ("eip155:1088", "metis"),
   ("klaytn", "klaytn"), ("8217", "klaytn"), ("eip155:8217", "klaytn"),
   ("celo", "celo"), ("42220", "celo"), ("eip155:42220", "celo"),
   ("moonbeam", "moonbeam"), ("1284", "moonbeam"),
   ("eip155:1284", "moonbeam"),
   ("moonriver", "moonriver"), ("1285", "moonriver"),
   ("eip155:1285", "moonriver"),
   ("aurora", "aurora"), ("1313161554", "aurora"),
   ("eip155:1313161554", "aurora"),
   ("cronos", "cronos"), ("25", "cronos"), ("eip155:25", "cronos"),
   ("gnosis", "gnosis"), ("xdai", "gnosis"), ("100", "gnosis"),
   ("eip155:100", "gnosis"),
   ("harmony", "harmony"), ("1666600000", "harmony"),
   ("eip155:1666600000", "harmony")]

/-- `normalizeChain` of `analyze-wallet.ts` (the balance call site always
passes a `string | null` network id). -/
def normalizeChain (networkId : Option String) : String :=
  match networkId with
  | none => "eth"
  | some s =>
      let key := jsToLower s
      (CHAIN_ALIAS_MAP.lookup key).getD key

/-- `resolveDecimals` of `analyze-wallet.ts`. -/
def resolveDecimals (holding : CoinbaseBalanceResource) : ℤ :=
  (jsCoalesce
    [holding.asset.bind (·.decimals),
     holding.quantity.bind (·.decimals),
     holding.native_balance.bind (·.decimals)]).getD 18

/-- `resolveAmount` of `analyze-wallet.ts`. -/
def resolveAmount (holding : CoinbaseBalanceResource) (decimals : ℤ) :
    Option ℚ :=
  match toNumber holding.amount, holding.asset with
  | some directAmount, some _ =>
      (match holding.amount with
       | some (.str s) =>
           if strContains s '.' then some directAmount
           else
             let divisor := pow10 decimals
             some (if divisor = 0 then directAmount else directAmount / divisor)
       | _ => some directAmount)
  | _, _ =>
      match toNumber (holding.quantity.bind (·.amount_decimal)) with
      | some decimalAmount => some decimalAmount
      | none =>
          match jsCoalesce
              [holding.quantity.bind (·.amount),
               holding.native_balance.bind (·.amount)] with
          | some (.str s) =>
              if strContains s '.' then parseFloatJs s
              else
                (match parseFloatJs s with
                 | some integer =>
                     let divisor := pow10 decimals
                     some (if divisor = 0 then integer else integer / divisor)
                 | none => none)
          | some (.num q) =>
              let divisor := pow10 decimals
              some (if divisor = 0 then q else q / divisor)
          | none => none

/-- The USD extraction applied to one value-like object in
`extractUsdValue` and `deriveUsdValue24h` of `analyze-wallet.ts`: the first
present of `amount_usd ?? usd_value ?? amount` parsed as a number, with a
fall back to `amount` when the object's `symbol` is `"USD"`. -/
def usdFromValueLike (source : CoinbaseValue) : Option ℚ :=
  match toNumber
      (jsCoalesce [source.amount_usd, source.usd_value, source.amount]) with
  | some u => some u
  | none =>
      match source.symbol with
      | some sym =>
          if jsToUpper sym = "USD" then toNumber source.amount else none
      | none => none

/-- The loop over `[holding.value, holding.native_value]` in
`extractUsdValue` of `analyze-wallet.ts`. -/
def firstUsdFromSources : List (Option CoinbaseValue) → Option ℚ
  | [] => none
  | none :: rest => firstUsdFromSources rest
  | some src :: rest =>
      match usdFromValueLike src with
      | some u => some |u|
      | none => firstUsdFromSources rest

/-- `extractUsdValue` of `analyze-wallet.ts`. -/
def extractUsdValue (holding : CoinbaseBalanceResource) : Option ℚ :=
  match toNumber holding.value_usd with
  | some direct => some |direct|
  | none => firstUsdFromSources [holding.value, holding.native_value]

/-- `deriveUsdValue24h` of `analyze-wallet.ts`. -/
def deriveUsdValue24h (holding : CoinbaseBalanceResource)
    (currentValue : ℚ) : Option ℚ :=
  match holding.change_24h with
  | none => none
  | some change =>
      match usdFromValueLike change with
      | none => none
      | some changeUsd =>
          let prior := currentValue - changeUsd
          if prior > 0 then some prior else none

/-- `normalizeSymbol` of `analyze-wallet.ts`. -/
def normalizeSymbol (value : Option String) : Option String :=
  match value with
  | none => none
  | some s =>
      let trimmed := jsTrim s
      if trimmed = "" then none else some (jsToUpper trimmed)

/-- `getPriceForHolding` of `analyze-wallet.ts`; the `Map` of prices is
modelled as an association list. -/
def getPriceForHolding (holding : CoinbaseBalanceResource)
    (priceMap : List (String × ℚ)) : Option ℚ :=
  match CoinGecko.buildPriceKey holding with
  | none => none
  | some key => priceMap.lookup key

/-- The `hasMeaningfulAmount` test of `buildTokens`
(`amount != null && amount > VALUE_EPSILON`). -/
def hasMeaningfulAmount (amount : Option ℚ) : Bool :=
  match amount with
  | some a => decide (VALUE_EPSILON < a)
  | none => false

/-- The `effectiveValueUsd` computation of `buildTokens`
(`analyze-wallet.ts` lines 127-144): the oracle price times the amount when
a price is mapped and the amount is meaningful, else the directly-reported
USD value, else zero. -/
def effectiveValueUsd (holding : CoinbaseBalanceResource)
    (priceMap : List (String × ℚ)) : ℚ :=
  let decimals := resolveDecimals holding
  let amount := resolveAmount holding decimals
  match getPriceForHolding holding priceMap with
  | some price =>
      if hasMeaningfulAmount amount then price * amount.getD 0
      else (extractUsdValue holding).getD 0
  | none => (extractUsdValue holding).getD 0

/-- The per-holding mapping step of `buildTokens` (the big `.map` lambda):
returns `none` exactly on the three suppression paths of the source. -/
def mkToken (priceMap : List (String × ℚ))
    (holding : CoinbaseBalanceResource) : Option AnalysisToken :=
  let chain := normalizeChain holding.network_id
  let symbol :=
    (jsCoalesce
      [normalizeSymbol (holding.asset.bind (·.symbol)),
       normalizeSymbol (holding.asset.bind (·.asset_id))]).getD (jsToUpper chain)
  let decimals := resolveDecimals holding
  let amount := resolveAmount holding decimals
  let eff := effectiveValueUsd holding priceMap
  if ¬ hasMeaningfulAmount amount ∧ eff < VALUE_EPSILON then none
  else if (holding.asset.bind (·.is_scam)).getD false then none
  else
    let isNative : Bool :=
      ((holding.asset.bind (·.address)).getD "" = "")
        ∨ (holding.asset.bind (·.token_type)) = some "native"
    let isVerified := (holding.asset.bind (·.is_verified)).getD true
    let unitPrice : Option ℚ :=
      if hasMeaningfulAmount amount then some (eff / amount.getD 1) else none
    if ¬ isNative ∧ ¬ isVerified
        ∧ (eff > MAX_UNVERIFIED_TOKEN_VALUE
            ∨ unitPrice.any (fun u => MAX_UNIT_PRICE_FOR_UNVERIFIED < u)) then none
    else
      let valueUsd24h := deriveUsdValue24h holding eff
      let change24h :=
        match valueUsd24h with
        | some v => if VALUE_EPSILON < v then ((eff - v) / v) * 100 else 0
        | none => 0
      some
        { symbol := symbol, protocol := chain, valueUsd := eff,
          change24h := change24h, allocationPct := 0,
          amount := amount.getD 0, decimals := decimals,
          valueUsd24h := valueUsd24h }

/-- The `reduce((acc, token) => acc + token.valueUsd, 0)` totaliser. -/
def sumValueUsd (tokens : List AnalysisToken) : ℚ :=
  tokens.foldl (fun acc t => acc + t.valueUsd) 0

/-- `buildTokens` of `analyze-wallet.ts`: map each holding, keep the
survivors, sort descending by USD value, then assign allocation
percentages when the total exceeds epsilon. -/
def buildTokens (holdings : List CoinbaseBalanceResource)
    (priceMap : List (String × ℚ)) : List AnalysisToken :=
  let tokens :=
    (holdings.filterMap (mkToken priceMap)).insertionSort
      (fun a b => b.valueUsd ≤ a.valueUsd)
  let total := sumValueUsd tokens
  if VALUE_EPSILON < total then
    tokens.map (fun t => { t with allocationPct := t.valueUsd / total * 100 })
  else tokens

/-- The stable-asset USD total used by `computeRisk` and `buildInsights`. -/
def stableValueOf (tokens : List AnalysisToken) : ℚ :=
  sumValueUsd (tokens.filter (fun t => STABLE_SYMBOLS.contains (jsToUpper t.symbol)))

/-- `computeRisk` of `analyze-wallet.ts`. -/
def computeRisk (tokens : List AnalysisToken) : RiskLevel :=
  let total := sumValueUsd tokens
  if total < VALUE_EPSILON then .Moderate
  else
    let stableFraction := stableValueOf tokens / total
    if stableFraction ≥ 0.4 then .Conservative
    else if stableFraction ≥ 0.15 then .Moderate
    else .Aggressive

/-- Left-pad a numeral string with zeros. -/
def padZeros (s : String) (len : ℕ) : String :=
  String.mk (List.replicate (len - s.length) '0') ++ s

/-- Model of JavaScript `Number.prototype.toFixed(digits)`: round to the
nearest multiple of `10 ^ (-digits)`, ties toward positive infinity, and
render with exactly `digits` fractional digits. -/
def toFixed (q : ℚ) (digits : ℕ) : String :=
  let scale : ℕ := 10 ^ digits
  let n : ℤ := ⌊q * (scale : ℚ) + 1/2⌋
  let sign := if n < 0 then "-" else ""
  let m := n.natAbs
  let intPart := m / scale
  let fracPart := m % scale
  if digits = 0 then sign ++ toString intPart
  else sign ++ toString intPart ++ "." ++ padZeros (toString fracPart) digits

/-- `formatNumber` of `analyze-wallet.ts`. -/
def formatNumber (value : ℚ) : String :=
  if value ≥ 1000000 then toFixed (value / 1000000) 2 ++ "M"
  else if value ≥ 1000 then toFixed (value / 1000) 2 ++ "K"
  else toFixed value 2

/-- The single insight returned when no priced balance was found. -/
def noBalanceInsight : AnalysisInsight :=
  { title := "No balance detected",
    detail := "We could not find any priced assets for this wallet on the configured chains.",
    tone := .neutral }

/-- The stablecoin-coverage rule of `buildInsights` (zero or one insight). -/
def stableReserveInsights (tokens : List AnalysisToken) (netWorth : ℚ) :
    List AnalysisInsight :=
  let stableFraction := stableValueOf tokens / netWorth
  if stableFraction ≥ 0.4 then
    [{ title := "Stablecoin reserves are strong",
       detail := "Stable assets represent " ++ toFixed (stableFraction * 100) 1
         ++ "% of the portfolio, providing solid downside protection for treasury operations.",
       tone := .positive }]
  else if stableFraction ≤ 0.1 then
    [{ title := "Low stablecoin coverage",
       detail := "Only " ++ toFixed (stableFraction * 100) 1
         ++ "% of the portfolio sits in stable assets, which may limit runway for liabilities or payroll. Consider rotating a portion into stables.",
       tone := .warning }]
  else []

/-- The single-asset concentration rule of `buildInsights` (zero or one
insight). -/
def concentrationInsights (tokens : List AnalysisToken) :
    List AnalysisInsight :=
  match tokens.head? with
  | some topToken =>
      if topToken.allocationPct ≥ 45 then
        [{ title := topToken.symbol ++ " dominates exposure",
           detail := topToken.symbol ++ " accounts for "
             ++ toFixed topToken.allocationPct 1
             ++ "% of portfolio value. Review diversification to reduce protocol-specific risk.",
           tone := .warning }]
      else []
  | none => []

/-- The daily-momentum rule of `buildInsights` (always exactly one
insight: flat, positive, or dipped). -/
def momentumInsights (netWorthChange netWorthChangePct : ℚ) :
    List AnalysisInsight :=
  if |netWorthChange| < VALUE_EPSILON then
    [{ title := "Flat daily performance",
       detail := "Portfolio value held steady over the last day. Monitor market catalysts to identify upcoming opportunities.",
       tone := .neutral }]
  else if netWorthChange > 0 then
    [{ title := "Positive momentum",
       detail := "Net worth grew by $" ++ formatNumber |netWorthChange|
         ++ " (" ++ toFixed netWorthChangePct 2
         ++ "%) in the last 24 hours, suggesting recent inflows or price appreciation.",
       tone := .positive }]
  else
    [{ title := "Net worth dipped",
       detail := "Net worth fell by $" ++ formatNumber |netWorthChange|
         ++ " (" ++ toFixed netWorthChangePct 2
         ++ "%) in the last 24 hours. Consider reviewing recent outflows or market moves.",
       tone := .warning }]

/-- The conservative-stance rule of `buildInsights` (zero or one
insight). -/
def conservativeInsights (riskLevel : RiskLevel) (netWorthChange : ℚ) :
    List AnalysisInsight :=
  if riskLevel = RiskLevel.Conservative ∧ netWorthChange > 0 then
    [{ title := "Conservative stance working",
       detail := "Your stable-heavy mix is still capturing upside. Monitor if it remains aligned with treasury targets.",
       tone := .positive }]
  else []

/-- `buildInsights` of `analyze-wallet.ts`: a no-balance short circuit,
then four rules appended in a fixed order. -/
def buildInsights (tokens : List AnalysisToken)
    (netWorth netWorthChange netWorthChangePct : ℚ)
    (riskLevel : RiskLevel) : List AnalysisInsight :=
  if netWorth < VALUE_EPSILON then [noBalanceInsight]
  else
    stableReserveInsights tokens netWorth
      ++ concentrationInsights tokens
      ++ momentumInsights netWorthChange netWorthChangePct
      ++ conservativeInsights riskLevel netWorthChange

end AnalyzeWallet

/-- A party object (`from` / `to`) on a Coinbase transaction resource. -/
structure CoinbaseParty where
  address : Option String := none
  label : Option String := none
deriving DecidableEq, Repr

/-- The `fee` object on a Coinbase transaction resource. -/
structure CoinbaseFee where
  amount : Option CoinbaseValue := none
  amount_usd : Option JsPrim := none
  usd_value : Option JsPrim := none
deriving DecidableEq, Repr

/-- A token-transfer sub-record (`CoinbaseTokenTransfer` of
`wallet-history.ts`).  The fields `from` and `to` are keywords in Lean and
are modelled as `from_` and `to_`. -/
structure CoinbaseTokenTransfer where
  from_ : Option String := none
  to_ : Option String := none
  amount : Option JsPrim := none
  amount_usd : Option JsPrim := none
  symbol : Option String := none
  decimals : Option Int := none
deriving DecidableEq, Repr

/-- `CoinbaseTransactionContent` of `wallet-history.ts`. -/
structure CoinbaseTransactionContent where
  block_timestamp : Option String := none
  hash : Option String := none
  from_ : Option String := none
  to_ : Option String := none
  value : Option CoinbaseValue := none
  native_value : Option CoinbaseValue := none
  token_transfers : Option (List CoinbaseTokenTransfer) := none
  network_id : Option JsPrim := none
deriving DecidableEq, Repr

/-- The `metadata` object of a Coinbase transaction resource; the source
only ever reads its `transaction_hash` field (of unknown type). -/
structure CoinbaseTransactionMetadata where
  transaction_hash : Option JsPrim := none
deriving DecidableEq, Repr

/-- `CoinbaseTransactionResource` of `providers/coinbase.ts`.  The `hash`
field is declared `string` in the TS type but all consumers treat it
defensively as possibly absent, hence `Option String` here. -/
structure CoinbaseTransactionResource where
  hash : Option String := none
  block_hash : Option String := none
  block_height : Option Int := none
  block_timestamp : Option String := none
  network_id : Option String := none
  from_ : Option CoinbaseParty := none
  to_ : Option CoinbaseParty := none
  value : Option CoinbaseValue := none
  native_value : Option CoinbaseValue := none
  fee : Option CoinbaseFee := none
  metadata : Option CoinbaseTransactionMetadata := none
  transaction_hash : Option String := none
  transaction_link : Option String := none
  content : Option CoinbaseTransactionContent := none
deriving DecidableEq, Repr

namespace WalletHistory

/-- The transfer direction of a normalized transaction; the constructors
model the source strings `"in"`, `"out"` and `"internal"`. -/
inductive TxDirection where
  | inbound
  | outbound
  | internal
deriving DecidableEq, Repr

/-- `WalletTransaction` of `wallet-history.ts`. -/
structure WalletTransaction where
  hash : String
  timestamp : String
  direction : TxDirection
  valueUsd : Option ℚ
  amount : Option ℚ
  symbol : Option String
  counterparty : Option String
  chain : String
  gasFeeUsd : Option ℚ
  explorerUrl : String
deriving DecidableEq, Repr

/-- `DEFAULT_EXPLORER` of `wallet-history.ts`. -/
def DEFAULT_EXPLORER : String := "https://etherscan.io/tx/"

/-- Per-chain explorer and native-symbol metadata. -/
structure ChainMetadata where
  explorer : String
  symbol : String
deriving DecidableEq, Repr

/-- `CHAIN_METADATA` of `wallet-history.ts`. -/
def CHAIN_METADATA : List (String × ChainMetadata) :=
  [("eth", ⟨"https://etherscan.io/tx/", "ETH"⟩),
   ("base", ⟨"https://basescan.org/tx/", "ETH"⟩),
   ("base-sepolia", ⟨"https://sepolia.basescan.org/tx/", "ETH"⟩),
   ("polygon", ⟨"https://polygonscan.com/tx/", "MATIC"⟩),
   ("arbitrum", ⟨"https://arbiscan.io/tx/", "ETH"⟩),
   ("arbitrum-mainnet", ⟨"https://arbiscan.io/tx/", "ETH"⟩),
   ("optimism", ⟨"https://optimistic.etherscan.io/tx/", "ETH"⟩),
   ("bsc", ⟨"https://bscscan.com/tx/", "BNB"⟩),
   ("avalanche", ⟨"https://snowtrace.io/tx/", "AVAX"⟩),
   ("fantom", ⟨"https://ftmscan.com/tx/", "FTM"⟩),
   ("zksync", ⟨"https://explorer.zksync.io/tx/", "ETH"⟩),
   ("linea", ⟨"https://lineascan.build/tx/", "ETH"⟩),
   ("scroll", ⟨"https://scrollscan.com/tx/", "ETH"⟩),
   ("metis", ⟨"https://explorer.metis.io/tx/", "METIS"⟩),
   ("klaytn", ⟨"https://scope.klaytn.com/tx/", "KLAY"⟩),
   ("celo", ⟨"https://celoscan.io/tx/", "CELO"⟩),
   ("moonbeam", ⟨"https://moonscan.io/tx/", "GLMR"⟩),
   ("moonriver", ⟨"https://moonriver.moonscan.io/tx/", "MOVR"⟩),
   ("aurora", ⟨"https://explorer.aurora.dev/tx/", "AURORA"⟩),
   ("cronos", ⟨"https://cronoscan.com/tx/", "CRO"⟩),
   ("gnosis", ⟨"https://gnosisscan.io/tx/", "XDAI"⟩),
   ("harmony", ⟨"https://explorer.harmony.one/tx/", "ONE"⟩)]

/-- `CHAIN_DECIMALS` of `wallet-history.ts`. -/
def CHAIN_DECIMALS : List (String × ℤ) :=
  [("eth", 18), ("base", 18), ("base-sepolia", 18), ("polygon", 18),
   ("arbitrum", 18), ("arbitrum-mainnet", 18), ("optimism", 18),
   ("bsc", 18), ("avalanche", 18), ("fantom", 18), ("zksync", 18),
   ("linea", 18), ("scroll", 18), ("metis", 18), ("klaytn", 18),
   ("celo", 18), ("moonbeam", 18), ("moonriver", 18), ("aurora", 18),
   ("cronos", 18), ("gnosis", 18), ("harmony", 18)]

/-- `CHAIN_ALIAS_MAP` of `wallet-history.ts`. -/
def CHAIN_ALIAS_MAP : List (String × String) :=
  [("eth", "eth"), ("ethereum", "eth"), ("1", "eth"), ("eip155:1", "eth"),
   ("ethereum-mainnet", "eth"),
   ("base", "base"), ("base-sepolia", "base-sepolia"), ("8453", "base"),
   ("eip155:8453", "base"), ("base-mainnet", "base"),
   ("polygon", "polygon"), ("137", "polygon"), ("eip155:137", "polygon"),
   ("polygon-mainnet", "polygon"),
   ("arbitrum", "arbitrum"), ("42161", "arbitrum"),
   ("eip155:42161", "arbitrum"), ("arbitrum-one", "arbitrum"),
   ("arbitrum-mainnet", "arbitrum"),
   ("optimism", "optimism"), ("10", "optimism"), ("eip155:10", "optimism"),
   ("optimism-mainnet", "optimism"),
   ("bsc", "bsc"), ("56", "bsc"), ("eip155:56", "bsc"),
   ("bnb-mainnet", "bsc"),
   ("avalanche", "avalanche"), ("43114", "avalanche"),
   ("eip155:43114", "avalanche"), ("avalanche-mainnet", "avalanche"),
   ("fantom", "fantom"), ("250", "fantom"), ("eip155:250", "fantom"),
   ("fantom-mainnet", "fantom"),
   ("zksync", "zksync"), ("324", "zksync"), ("eip155:324", "zksync"),
   ("zksync-era", "zksync"),
   ("linea", "linea"), ("1101", "linea"), ("eip155:1101", "linea"),
   ("linea-mainnet", "linea"),
   ("scroll", "scroll"), ("534352", "scroll"), ("eip155:534352", "scroll"),
   ("scroll-mainnet", "scroll"),
   ("metis", "metis"), ("1088", "metis"), ("eip155:1088", "metis"),
   ("metis-andromeda", "metis"),
   ("klaytn", "klaytn"), ("8217", "klaytn"), ("eip155:8217", "klaytn"),
   ("celo", "celo"), ("42220", "celo"), ("eip155:42220", "celo"),
   ("celo-mainnet", "celo"),
   ("moonbeam", "moonbeam"), ("1284", "moonbeam"),
   ("eip155:1284", "moonbeam"),
   ("moonriver", "moonriver"), ("1285", "moonriver"),
   ("eip155:1285", "moonriver"),
   ("aurora", "aurora"), ("1313161554", "aurora"),
   ("eip155:1313161554", "aurora"),
   ("cronos", "cronos"), ("25", "cronos"), ("eip155:25", "cronos"),
   ("gnosis", "gnosis"), ("xdai", "gnosis"), ("100", "gnosis"),
   ("eip155:100", "gnosis"),
   ("harmony", "harmony"), ("1666600000", "harmony"),
   ("eip155:1666600000", "harmony")]

/-- `safeLowerCase` of `wallet-history.ts`. -/
def safeLowerCase : Option String → Option String
  | some s => some (jsToLower s)
  | none => none

/-- JavaScript `String(v)` for a primitive (numbers are rendered in
integral form when integral; non-integral numeric network ids do not occur
in practice). -/
def jsStringOfPrim : JsPrim → String
  | .str s => s
  | .num q => if q.den = 1 then toString q.num else toString q

/-- `normalizeChain` of `wallet-history.ts` (accepts a string or numeric
network id). -/
def normalizeChain (networkId : Option JsPrim) : String :=
  match networkId with
  | none => "eth"
  | some p =>
      let key := jsToLower (jsStringOfPrim p)
      (CHAIN_ALIAS_MAP.lookup key).getD key

/-- `normalizeSymbol` of `wallet-history.ts`. -/
def normalizeSymbol (value : Option String) : Option String :=
  match value with
  | none => none
  | some s =>
      let trimmed := jsTrim s
      if trimmed = "" then none else some (jsToUpper trimmed)

/-- `extractContent` of `wallet-history.ts` (the `content` sub-object,
when object-shaped). -/
def extractContent (item : CoinbaseTransactionResource) :
    Option CoinbaseTransactionContent :=
  item.content

/-- The candidate list inspected by `selectHash`, in source order:
`item.hash`, `item.transaction_hash`, `content?.hash`, the
metadata-embedded hash, `item.block_hash`. -/
def hashCandidates (item : CoinbaseTransactionResource)
    (content : Option CoinbaseTransactionContent) : List (Option JsPrim) :=
  [item.hash.map .str,
   item.transaction_hash.map .str,
   (content.bind (·.hash)).map .str,
   item.metadata.bind (·.transaction_hash),
   item.block_hash.map .str]

/-- The loop of `selectHash`: the first candidate that is a string and
non-blank after trimming. -/
def firstNonBlankString : List (Option JsPrim) → Option String
  | [] => none
  | some (.str s) :: rest =>
      if jsTrim s ≠ "" then some s else firstNonBlankString rest
  | _ :: rest => firstNonBlankString rest

/-- `selectHash` of `wallet-history.ts`. -/
def selectHash (item : CoinbaseTransactionResource)
    (content : Option CoinbaseTransactionContent) : Option String :=
  firstNonBlankString (hashCandidates item content)

/-- The timestamp resolution of `normalizeTransaction`
(`content?.block_timestamp ?? item.block_timestamp ?? new Date().toISOString()`);
the hidden wall-clock read is made explicit as the `now` parameter. -/
def resolveTimestamp (item : CoinbaseTransactionResource)
    (content : Option CoinbaseTransactionContent) (now : String) : String :=
  match content.bind (·.block_timestamp) with
  | some t => t
  | none =>
      match item.block_timestamp with
      | some t => t
      | none => now

/-- The string key `"from"` / `"to"` used to index parties, content fields
and transfers. -/
inductive PartyKey where
  | from_
  | to_
deriving DecidableEq, Repr

/-- `transfer[key]` for a token transfer. -/
def transferField (key : PartyKey) (t : CoinbaseTokenTransfer) :
    Option String :=
  match key with
  | .from_ => t.from_
  | .to_ => t.to_

/-- `item[key]` for the party objects of a transaction resource. -/
def partyField (key : PartyKey) (item : CoinbaseTransactionResource) :
    Option CoinbaseParty :=
  match key with
  | .from_ => item.from_
  | .to_ => item.to_

/-- `content[key]` for the flat address fields of the content object. -/
def contentField (key : PartyKey) (content : CoinbaseTransactionContent) :
    Option String :=
  match key with
  | .from_ => content.from_
  | .to_ => content.to_

/-- Keep a string only when it is non-blank after trimming (the repeated
`typeof v === "string" && v.trim() !== ""` guard). -/
def nonBlank (value : Option String) : Option String :=
  value.bind (fun s => if jsTrim s ≠ "" then some s else none)

/-- `selectAddressFromTransfers` of `wallet-history.ts`. -/
def selectAddressFromTransfers
    (content : Option CoinbaseTransactionContent) (key : PartyKey) :
    Option String :=
  match content.bind (·.token_transfers) with
  | none => none
  | some transfers =>
      transfers.findSome? (fun entry => nonBlank (transferField key entry))

/-- `extractAddress` of `wallet-history.ts`: party-object address, then
flat content field, then the first transfer-level address. -/
def extractAddress (item : CoinbaseTransactionResource)
    (content : Option CoinbaseTransactionContent) (key : PartyKey) :
    Option String :=
  jsCoalesce
    [nonBlank ((partyField key item).bind (·.address)),
     nonBlank (content.bind (contentField key)),
     selectAddressFromTransfers content key]

/-- `extractPartyLabel` of `wallet-history.ts`: party label, then party
address, then flat content field, then a transfer-level address. -/
def extractPartyLabel (item : CoinbaseTransactionResource)
    (content : Option CoinbaseTransactionContent) (key : PartyKey) :
    Option String :=
  jsCoalesce
    [(match partyField key item with
      | some party => jsCoalesce [nonBlank party.label, nonBlank party.address]
      | none => none),
     nonBlank (content.bind (contentField key)),
     selectAddressFromTransfers content key]

/-- `determineDirection` of `wallet-history.ts`: recipient match wins,
then sender match, else internal. -/
def determineDirection (normalizedAddress : String)
    (fromAddress toAddress : Option String) : TxDirection :=
  let normalizedFrom := safeLowerCase fromAddress
  let normalizedTo := safeLowerCase toAddress
  if normalizedTo = some normalizedAddress then .inbound
  else if normalizedFrom = some normalizedAddress then .outbound
  else .internal

/-- `selectPrimaryTransfer` of `wallet-history.ts`. -/
def selectPrimaryTransfer (content : Option CoinbaseTransactionContent)
    (normalizedAddress : String) (direction : TxDirection) :
    Option CoinbaseTokenTransfer :=
  let transfers := (content.bind (·.token_transfers)).getD []
  match transfers with
  | [] => none
  | t0 :: _ =>
      let targetKey : Option PartyKey :=
        match direction with
        | .inbound => some .to_
        | .outbound => some .from_
        | .internal => none
      let matched := targetKey.bind (fun key =>
        transfers.find? (fun t =>
          safeLowerCase (transferField key t) == some normalizedAddress))
      match matched with
      | some m => some m
      | none =>
          let fallback := transfers.find? (fun t =>
            (safeLowerCase t.from_ == some normalizedAddress)
              || (safeLowerCase t.to_ == some normalizedAddress))
          some (fallback.getD t0)

/-- `sanitizeCounterparty` of `wallet-history.ts`. -/
def sanitizeCounterparty (value : Option String)
    (normalizedAddress : String) : Option String :=
  match value with
  | none => none
  | some v =>
      if jsTrim v = "" then none
      else if jsToLower v = normalizedAddress then none
      else some v

/-- `determineCounterparty` of `wallet-history.ts`. -/
def determineCounterparty (direction : TxDirection)
    (normalizedAddress : String)
    (fromAddress toAddress fromLabel toLabel : Option String)
    (transfer : Option CoinbaseTokenTransfer) : Option String :=
  let transferFrom :=
    sanitizeCounterparty (transfer.bind (·.from_)) normalizedAddress
  let transferTo :=
    sanitizeCounterparty (transfer.bind (·.to_)) normalizedAddress
  match direction with
  | .inbound => jsCoalesce [transferFrom, fromLabel, fromAddress]
  | .outbound => jsCoalesce [transferTo, toLabel, toAddress]
  | .internal =>
      jsCoalesce
        [transferTo, transferFrom, toLabel, fromLabel, toAddress, fromAddress]

/-- `parseUsdFromValue` of `wallet-history.ts`; at every embedded call
site the argument is an object (value-like) or absent, so the scalar
branch of the source (which returns `null`) is covered by `none`. -/
def parseUsdFromValue (value : Option CoinbaseValue) : Option ℚ :=
  match value with
  | none => none
  | some v =>
      jsCoalesce
        [toNumber v.amount_usd, toNumber v.usd_value,
         toNumber v.fiat_value, toNumber v.amount_usd_value]

/-- `resolveDecimalsHint` of `wallet-history.ts` (all modelled decimals
are finite integers, so the `Number.isFinite` guards are vacuous). -/
def resolveDecimalsHint (provided : Option ℤ) (chain : Option String)
    (fallback : Option ℤ) : Option ℤ :=
  match provided with
  | some p => some p
  | none =>
      match chain.bind (fun c => CHAIN_DECIMALS.lookup c) with
      | some d => some d
      | none => fallback

/-- `parseScalarAmount` of `wallet-history.ts`. -/
def parseScalarAmount (raw : Option JsPrim) (decimals : Option ℤ) :
    Option ℚ :=
  match raw with
  | none => none
  | some (.num q) => some q
  | some (.str s) =>
      let trimmed := jsTrim s
      if trimmed = "" then none
      else
        match parseNumberJs trimmed, decimals with
        | none, _ => none
        | some numeric, none => some numeric
        | some numeric, some d =>
            if strContains trimmed '.' then some numeric
            else
              let divisor := pow10 d
              if divisor = 0 then some numeric else some (numeric / divisor)

/-- `parseAmountFromValue` of `wallet-history.ts` (object case; every
embedded call site passes a value object or nothing). -/
def parseAmountFromValue (value : Option CoinbaseValue)
    (decimals : Option ℤ) : Option ℚ :=
  match value with
  | none => none
  | some v =>
      let decimalsHint := resolveDecimalsHint v.decimals none decimals
      parseScalarAmount (jsCoalesce [v.amount, v.amount_decimal]) decimalsHint

/-- View of a token transfer as a value-like object (property reads on a
transfer in `parseUsdFromValue` call sites). -/
def transferToValueLike (t : CoinbaseTokenTransfer) : CoinbaseValue :=
  { amount := t.amount, amount_usd := t.amount_usd,
    decimals := t.decimals, symbol := t.symbol }

/-- The candidate value objects shared by `extractUsdValue` and
`resolveAmount`: `item.value`, `item.native_value`, `item.fee?.amount`,
`content?.value`, `content?.native_value`. -/
def candidateValues (item : CoinbaseTransactionResource)
    (content : Option CoinbaseTransactionContent) :
    List (Option CoinbaseValue) :=
  [item.value, item.native_value, item.fee.bind (·.amount),
   content.bind (·.value), content.bind (·.native_value)]

/-- `extractUsdValue` of `wallet-history.ts`. -/
def extractUsdValue (item : CoinbaseTransactionResource)
    (content : Option CoinbaseTransactionContent)
    (transfer : Option CoinbaseTokenTransfer) : Option ℚ :=
  match (candidateValues item content).findSome? parseUsdFromValue with
  | some usd => some usd
  | none =>
      match ((content.bind (·.token_transfers)).getD []).findSome?
          (fun raw => parseUsdFromValue (some (transferToValueLike raw))) with
      | some usd => some usd
      | none =>
          match transfer with
          | some t => toNumber t.amount_usd
          | none => none

/-- `resolveAmount` of `wallet-history.ts`. -/
def resolveAmount (item : CoinbaseTransactionResource)
    (content : Option CoinbaseTransactionContent) (chain : String)
    (transfer : Option CoinbaseTokenTransfer) : Option ℚ :=
  match (candidateValues item content).findSome?
      (fun c => parseAmountFromValue c (CHAIN_DECIMALS.lookup chain)) with
  | some amount => some amount
  | none =>
      match transfer with
      | some t =>
          parseScalarAmount t.amount
            (resolveDecimalsHint t.decimals (some chain) none)
      | none => none

/-- `extractFeeUsd` of `wallet-history.ts`. -/
def extractFeeUsd (item : CoinbaseTransactionResource)
    (content : Option CoinbaseTransactionContent) : Option ℚ :=
  match toNumber (jsCoalesce
      [item.fee.bind (·.amount_usd), item.fee.bind (·.usd_value)]) with
  | some direct => some direct
  | none =>
      match parseUsdFromValue (item.fee.bind (·.amount)) with
      | some amountBased => some amountBased
      | none =>
          ((content.bind (·.token_transfers)).getD []).findSome?
            (fun t => parseUsdFromValue (some (transferToValueLike t)))

/-- `normalizeTransaction` of `wallet-history.ts`.  The hidden
`new Date().toISOString()` fallback is made explicit as the `now`
parameter; everything else is a pure function of the inputs. -/
def normalizeTransaction (item : CoinbaseTransactionResource)
    (normalizedAddress : String) (now : String) :
    Option WalletTransaction :=
  let content := extractContent item
  let chain := normalizeChain
    (jsCoalesce [content.bind (·.network_id), item.network_id.map JsPrim.str])
  let chainMeta := (CHAIN_METADATA.lookup chain).getD
    { explorer := DEFAULT_EXPLORER, symbol := jsToUpper chain }
  match selectHash item content with
  | none => none
  | some hash =>
      let timestamp := resolveTimestamp item content now
      let fromAddress := extractAddress item content .from_
      let toAddress := extractAddress item content .to_
      let direction := determineDirection normalizedAddress fromAddress toAddress
      let transfer := selectPrimaryTransfer content normalizedAddress direction
      let symbol := (normalizeSymbol (transfer.bind (·.symbol))).getD chainMeta.symbol
      let valueUsd := extractUsdValue item content transfer
      let amount := resolveAmount item content chain transfer
      let gasFeeUsd := extractFeeUsd item content
      let counterparty := determineCounterparty direction normalizedAddress
        fromAddress toAddress
        (extractPartyLabel item content .from_)
        (extractPartyLabel item content .to_) transfer
      some
        { hash := hash, timestamp := timestamp, direction := direction,
          valueUsd := valueUsd, amount := amount, symbol := some symbol,
          counterparty := counterparty, chain := chain,
          gasFeeUsd := gasFeeUsd,
          explorerUrl :=
            match item.transaction_link with
            | some l => if l = "" then chainMeta.explorer ++ hash else l
            | none => chainMeta.explorer ++ hash }

end WalletHistory

namespace Coinbase

/-- `CoinbasePagination` of `providers/coinbase.ts`. -/
structure CoinbasePagination where
  cursor : Option String := none
  next_cursor : Option String := none
  has_next : Option Bool := none
deriving DecidableEq, Repr

/-- `CoinbaseTransactionResponse` of `providers/coinbase.ts`. -/
structure CoinbaseTransactionResponse where
  data : Option (List CoinbaseTransactionResource) := none
  pagination : Option CoinbasePagination := none
deriving DecidableEq, Repr

/-- The metadata-embedded hash extraction of the dedup key computation
(`""` when absent or not a string). -/
def metadataHashOf (tx : CoinbaseTransactionResource) : String :=
  match tx.metadata.bind (·.transaction_hash) with
  | some (.str s) => s
  | _ => ""

/-- The deduplication key of `fetchTransactionsForNetwork`:
`normalizedNetwork : (hash || metadataHash || network-blockhash-height)`. -/
def dedupeKey (networkId : String) (tx : CoinbaseTransactionResource) :
    String :=
  let normalizedNetwork := tx.network_id.getD networkId
  let metadataHash := metadataHashOf tx
  let baseKey :=
    if tx.hash.getD "" ≠ "" then tx.hash.getD ""
    else if metadataHash ≠ "" then metadataHash
    else
      normalizedNetwork ++ "-" ++ tx.block_hash.getD "" ++ "-"
        ++ (match tx.block_height with
            | some h => toString h
            | none => "")
  normalizedNetwork ++ ":" ++ baseKey

/-- One step of the `batch.forEach` in `fetchTransactionsForNetwork`:
skip a record whose key was seen, otherwise record its key and push the
record with its network id normalized. -/
def processTx (networkId : String)
    (st : List CoinbaseTransactionResource × List String)
    (tx : CoinbaseTransactionResource) :
    List CoinbaseTransactionResource × List String :=
  let normalizedNetwork := tx.network_id.getD networkId
  let key := dedupeKey networkId tx
  if st.2.contains key then st
  else (st.1 ++ [{ tx with network_id := some normalizedNetwork }],
        st.2 ++ [key])

/-- The full `batch.forEach` loop over one (or several concatenated)
response batches, threading the `seen` set. -/
def processBatch (networkId : String)
    (batch : List CoinbaseTransactionResource)
    (st : List CoinbaseTransactionResource × List String) :
    List CoinbaseTransactionResource × List String :=
  batch.foldl (processTx networkId) st

/-- `response.pagination?.next_cursor ?? response.pagination?.cursor`. -/
def nextCursorOf (response : CoinbaseTransactionResponse) : Option String :=
  jsCoalesce
    [response.pagination.bind (·.next_cursor),
     response.pagination.bind (·.cursor)]

/-- The cursor update of the pagination loop: the cursor becomes undefined
when the next cursor is absent, empty (falsy) or equal to the cursor just
used. -/
def advanceCursor (nextCursor cursor : Option String) : Option String :=
  match nextCursor with
  | none => none
  | some s => if s = "" ∨ some s = cursor then none else some s

/-- The `do … while (cursor)` pagination loop of
`fetchTransactionsForNetwork`.  The provider is modelled as the sequence
of responses to the successive requests; `reqIdx` counts requests already
made, and the structurally decreasing `fuel` mirrors the bound enforced by
the `safety` counter (`safety > 25` breaks the loop, so starting with fuel
26 the zero-fuel branch is unreachable; see `paginate_fuel_high`).
The result pairs the collected items with the number of pages fetched. -/
def paginate (provider : ℕ → CoinbaseTransactionResponse)
    (networkId : String) :
    ℕ → ℕ → Option String →
    List CoinbaseTransactionResource × List String →
    List CoinbaseTransactionResource × ℕ
  | 0, reqIdx, _, st => (st.1, reqIdx)
  | fuel + 1, reqIdx, cursor, st =>
      let response := provider reqIdx
      let batch := response.data.getD []
      let st1 := processBatch networkId batch st
      let cursor1 := advanceCursor (nextCursorOf response) cursor
      let safety := reqIdx + 1
      if 25 < safety then (st1.1, safety)
      else
        match cursor1 with
        | none => (st1.1, safety)
        | some c => paginate provider networkId fuel (reqIdx + 1) (some c) st1

/-- `fetchTransactionsForNetwork` of `providers/coinbase.ts` (one
network's full paginated fetch). -/
def fetchTransactionsForNetwork
    (provider : ℕ → CoinbaseTransactionResponse) (networkId : String) :
    List CoinbaseTransactionResource × ℕ :=
  paginate provider networkId 26 0 none ([], [])

/-- One step of the success-collecting `forEach` of the
`Promise.allSettled` join. -/
def resStep {ε α : Type} (acc : List α) (s : Except ε (List α)) : List α :=
  match s with
  | .ok v => acc ++ v
  | .error _ => acc

/-- One step of the failure-collecting `forEach` of the
`Promise.allSettled` join. -/
def errStep {ε α : Type} (acc : List ε) (s : Except ε (List α)) : List ε :=
  match s with
  | .ok _ => acc
  | .error e => acc ++ [e]

/-- The fulfilled branches of the `Promise.allSettled` join: successful
chains' results concatenated in configuration order. -/
def settledResults {ε α : Type} (settlements : List (Except ε (List α))) :
    List α :=
  settlements.foldl resStep []

/-- The rejected branches of the `Promise.allSettled` join, in
configuration order. -/
def settledErrors {ε α : Type} (settlements : List (Except ε (List α))) :
    List ε :=
  settlements.foldl errStep []

/-- The combining logic shared by `fetchCoinbaseTransactions` and
`fetchCoinbaseBalances`: throw the first error when no record at all was
collected and at least one chain failed, otherwise return the collected
records. -/
def combineSettled {ε α : Type} (settlements : List (Except ε (List α))) :
    Except ε (List α) :=
  match settledResults settlements, settledErrors settlements with
  | [], e :: _ => .error e
  | rs, _ => .ok rs

end Coinbase

/-! ## Claim scenario and support definitions -/

/-- The spec scenario holding `{symbol: "ETH", valueUsd: 6000}`. -/
def c1EthToken : AnalyzeWallet.AnalysisToken :=
  { symbol := "ETH", protocol := "eth", valueUsd := 6000, change24h := 0,
    allocationPct := 60, amount := 2, decimals := 18 }

/-- The spec scenario holding `{symbol: "USDC", valueUsd: 4000}`. -/
def c1UsdcToken : AnalyzeWallet.AnalysisToken :=
  { symbol := "USDC", protocol := "eth", valueUsd := 4000, change24h := 0,
    allocationPct := 40, amount := 4000, decimals := 6 }

/-- Insertion of a key into the `seen` set, as performed by the dedup
step of `fetchTransactionsForNetwork`. -/
def insertKey (seen : List String) (key : String) : List String :=
  if seen.contains key then seen else seen ++ [key]

/-- The evolution of the `seen` set over a list of keys. -/
def keyFold (keys : List String) (seen : List String) : List String :=
  keys.foldl insertKey seen

/-- The C4 scenario: two raw transactions sharing hash "0xabc" on the
same chain, differing only in a nested token-transfer sub-record. -/
def c4Raw1 : CoinbaseTransactionResource :=
  { hash := some "0xabc",
    content := some { token_transfers := some [{ from_ := some "0xa" }] } }

/-- The second C4 scenario record (different nested transfer). -/
def c4Raw2 : CoinbaseTransactionResource :=
  { hash := some "0xabc",
    content := some { token_transfers := some [{ from_ := some "0xb" }] } }

/-- The first C2 witness holding: decimal amount 10, direct USD value
6000. -/
def c2Holding1 : CoinbaseBalanceResource :=
  { quantity := some { amount_decimal := some (.num 10) },
    value_usd := some (.num 6000) }

/-- The second C2 witness holding: decimal amount 5, direct USD value
4000. -/
def c2Holding2 : CoinbaseBalanceResource :=
  { quantity := some { amount_decimal := some (.num 5) },
    value_usd := some (.num 4000) }

/-- The C6 synthetic provider: every page reports a fresh, valid
next-cursor. -/
def c6AdvProvider (n : ℕ) : Coinbase.CoinbaseTransactionResponse :=
  { pagination := some { next_cursor := some (toString n) } }

/-- The loop state after processing the batches of the first `n` pages,
starting at request index `reqIdx`: the items and seen keys collected up
to that point by the `forEach` of each page. -/
def collectedAfter (provider : ℕ → Coinbase.CoinbaseTransactionResponse)
    (networkId : String)
    (st : List CoinbaseTransactionResource × List String) (reqIdx : ℕ) :
    ℕ → List CoinbaseTransactionResource × List String
  | 0 => st
  | n + 1 =>
      Coinbase.processBatch networkId ((provider (reqIdx + n)).data.getD [])
        (collectedAfter provider networkId st reqIdx n)

/-- The C6 witness provider: every page reports the same next cursor
`"A"`, so the second page's cursor repeats the cursor just used. -/
def c6RepeatProvider (_ : ℕ) : Coinbase.CoinbaseTransactionResponse :=
  { pagination := some { next_cursor := some "A" } }

/-- The C7 counterexample holding: network id "polygon", a directly
reported USD value of 50, and a decimal amount of 10. -/
def c7Holding : CoinbaseBalanceResource :=
  { network_id := some "polygon",
    quantity := some { amount_decimal := some (.num 10) },
    value_usd := some (.num 50) }

/-- The C7 counterexample price map: the hardcoded-ethereum native key
priced at 2 USD. -/
def c7PriceMap : List (String × ℚ) := [("native:ethereum", 2)]

/-- The C8 counterexample raw transaction: it has a hash but carries no
block timestamp anywhere, so the source falls back to
`new Date().toISOString()`. -/
def c8NoTimestampItem : CoinbaseTransactionResource :=
  { hash := some "0x1" }

/-- The C8 witness raw transaction: it carries an explicit block
timestamp. -/
def c8TimestampedItem : CoinbaseTransactionResource :=
  { hash := some "0xh", block_timestamp := some "2024-03-01T00:00:00Z" }

/-- The C9 counterexample raw transaction: its only hash candidate is the
whitespace string `" "`, which is a non-empty string but blank after
trimming. -/
def c9BlankHashItem : CoinbaseTransactionResource :=
  { hash := some " " }

/-- Test whether a hash candidate is a string that stays non-empty after
trimming (the acceptance condition of `selectHash`). -/
def isNonBlankStringCandidate : Option JsPrim → Bool
  | some (JsPrim.str s) => jsTrim s != ""
  | _ => false

/-- The string carried by a candidate, when it is a string. -/
def candidateString : Option JsPrim → Option String
  | some (JsPrim.str s) => some s
  | _ => none

/-- The first recoverable hash of a raw transaction, phrased through
`List.find?` over the candidate chain: the first candidate that is a
non-blank string. -/
def recoverableHash (item : CoinbaseTransactionResource) : Option String :=
  ((WalletHistory.hashCandidates item item.content).find?
    isNonBlankStringCandidate).bind candidateString

/-! ## Helper lemmas -/

theorem safeLowerCase_eq_map (o : Option String) :
    WalletHistory.safeLowerCase o = o.map jsToLower := by
  cases o <;> rfl

theorem stableReserveInsights_length (tokens : List AnalyzeWallet.AnalysisToken)
    (netWorth : ℚ) :
    (AnalyzeWallet.stableReserveInsights tokens netWorth).length ≤ 1 := by
  unfold AnalyzeWallet.stableReserveInsights
  dsimp only
  split_ifs <;> simp

theorem concentrationInsights_length (tokens : List AnalyzeWallet.AnalysisToken) :
    (AnalyzeWallet.concentrationInsights tokens).length ≤ 1 := by
  unfold AnalyzeWallet.concentrationInsights
  cases tokens.head? with
  | none => simp
  | some t =>
      dsimp only
      split_ifs <;> simp

theorem momentumInsights_length (netWorthChange netWorthChangePct : ℚ) :
    (AnalyzeWallet.momentumInsights netWorthChange netWorthChangePct).length = 1 := by
  unfold AnalyzeWallet.momentumInsights
  split_ifs <;> rfl

theorem conservativeInsights_length (riskLevel : AnalyzeWallet.RiskLevel)
    (netWorthChange : ℚ) :
    (AnalyzeWallet.conservativeInsights riskLevel netWorthChange).length ≤ 1 := by
  unfold AnalyzeWallet.conservativeInsights
  split_ifs <;> simp

theorem resStep_foldl_acc {ε α : Type} (l : List (Except ε (List α))) :
    ∀ acc : List α,
      l.foldl Coinbase.resStep acc = acc ++ l.foldl Coinbase.resStep [] := by
  induction l with
  | nil => intro acc; simp
  | cons s rest ih =>
      intro acc
      cases s with
      | ok v =>
          simp only [List.foldl_cons, Coinbase.resStep, List.nil_append]
          rw [ih (acc ++ v), ih v, List.append_assoc]
      | error e =>
          simp only [List.foldl_cons, Coinbase.resStep]
          exact ih acc

theorem settledResults_nil_of_all_error {ε α : Type}
    (settlements : List (Except ε (List α)))
    (h : ∀ s ∈ settlements, ∃ e, s = Except.error e) :
    Coinbase.settledResults settlements = [] := by
  induction settlements with
  | nil => rfl
  | cons s rest ih =>
      obtain ⟨e, he⟩ := h s (by simp)
      subst he
      unfold Coinbase.settledResults
      rw [List.foldl_cons]
      exact ih (fun s hs => h s (by simp [hs]))

theorem errStep_foldl_acc {ε α : Type} (l : List (Except ε (List α))) :
    ∀ acc : List ε,
      l.foldl Coinbase.errStep acc = acc ++ l.foldl Coinbase.errStep [] := by
  induction l with
  | nil => intro acc; simp
  | cons s rest ih =>
      intro acc
      cases s with
      | ok v =>
          simp only [List.foldl_cons, Coinbase.errStep]
          exact ih acc
      | error e =>
          simp only [List.foldl_cons, Coinbase.errStep, List.nil_append]
          rw [ih (acc ++ [e]), ih [e], List.append_assoc]

/-! ## Scenario inputs -/

/-! ## Claim theorems -/

unseal Rat.add Rat.mul Rat.inv Rat.sub Rat.ofScientific in
/-- C1: the risk classifier returns Moderate when the total USD value is
below epsilon; otherwise it returns Conservative exactly when the stable
ratio is at least 0.4, Moderate exactly when the ratio is in [0.15, 0.4),
and Aggressive exactly when it is below 0.15.  At the spec's boundary
scenario [ETH 6000, USDC 4000] the ratio is exactly 0.4 and the inclusive
threshold yields Conservative. -/
theorem c1_computeRisk_classification (tokens : List AnalyzeWallet.AnalysisToken) :
    (AnalyzeWallet.sumValueUsd tokens < AnalyzeWallet.VALUE_EPSILON →
      AnalyzeWallet.computeRisk tokens = AnalyzeWallet.RiskLevel.Moderate) ∧
    (¬ AnalyzeWallet.sumValueUsd tokens < AnalyzeWallet.VALUE_EPSILON →
      ((AnalyzeWallet.computeRisk tokens = AnalyzeWallet.RiskLevel.Conservative ↔
          AnalyzeWallet.stableValueOf tokens / AnalyzeWallet.sumValueUsd tokens ≥ 0.4) ∧
       (AnalyzeWallet.computeRisk tokens = AnalyzeWallet.RiskLevel.Moderate ↔
          (AnalyzeWallet.stableValueOf tokens / AnalyzeWallet.sumValueUsd tokens ≥ 0.15 ∧
           AnalyzeWallet.stableValueOf tokens / AnalyzeWallet.sumValueUsd tokens < 0.4)) ∧
       (AnalyzeWallet.computeRisk tokens = AnalyzeWallet.RiskLevel.Aggressive ↔
          AnalyzeWallet.stableValueOf tokens / AnalyzeWallet.sumValueUsd tokens < 0.15))) ∧
    AnalyzeWallet.computeRisk [c1EthToken, c1UsdcToken] =
      AnalyzeWallet.RiskLevel.Conservative := by
  refine ⟨fun h => ?_, fun h => ?_, by decide⟩
  · simp [AnalyzeWallet.computeRisk, h]
  · simp only [AnalyzeWallet.computeRisk, if_neg h]
    split_ifs with h1 h2
    · exact ⟨iff_of_true rfl h1,
        iff_of_false (by simp) (fun hc => (not_le.mpr hc.2) h1),
        iff_of_false (by simp)
          (fun hc => (not_le.mpr (hc.trans_le (by norm_num))) h1)⟩
    · exact ⟨iff_of_false (by simp) h1, iff_of_true rfl ⟨h2, not_le.mp h1⟩,
        iff_of_false (by simp) (fun hc => (not_le.mpr hc) h2)⟩
    · exact ⟨iff_of_false (by simp) h1, iff_of_false (by simp) (fun hc => h2 hc.1),
        iff_of_true rfl (not_le.mp h2)⟩

unseal Rat.add Rat.mul Rat.inv Rat.sub Rat.ofScientific in
/-- Witness for C1: the non-degenerate branch of the classification at the
boundary scenario. -/
theorem c1_computeRisk_classification_witness :
    AnalyzeWallet.computeRisk [c1EthToken, c1UsdcToken] =
      AnalyzeWallet.RiskLevel.Conservative :=
  ((c1_computeRisk_classification [c1EthToken, c1UsdcToken]).2.1
      (by decide)).1.mpr (by decide)

/-- C3: the direction of a normalized transaction is one of in, out,
internal; it is `in` exactly when the resolved recipient matches the
queried address case-insensitively, `out` exactly when the sender matches
and the recipient does not, and `internal` otherwise. -/
theorem c3_determineDirection_characterization (queried : String)
    (fromAddress toAddress : Option String) :
    (WalletHistory.determineDirection (jsToLower queried) fromAddress toAddress =
        WalletHistory.TxDirection.inbound ∨
     WalletHistory.determineDirection (jsToLower queried) fromAddress toAddress =
        WalletHistory.TxDirection.outbound ∨
     WalletHistory.determineDirection (jsToLower queried) fromAddress toAddress =
        WalletHistory.TxDirection.internal) ∧
    (WalletHistory.determineDirection (jsToLower queried) fromAddress toAddress =
        WalletHistory.TxDirection.inbound ↔
      toAddress.map jsToLower = some (jsToLower queried)) ∧
    (WalletHistory.determineDirection (jsToLower queried) fromAddress toAddress =
        WalletHistory.TxDirection.outbound ↔
      (fromAddress.map jsToLower = some (jsToLower queried) ∧
       ¬ toAddress.map jsToLower = some (jsToLower queried))) ∧
    (WalletHistory.determineDirection (jsToLower queried) fromAddress toAddress =
        WalletHistory.TxDirection.internal ↔
      (¬ toAddress.map jsToLower = some (jsToLower queried) ∧
       ¬ fromAddress.map jsToLower = some (jsToLower queried))) := by
  simp only [WalletHistory.determineDirection, safeLowerCase_eq_map]
  split_ifs with h1 h2
  · exact ⟨Or.inl rfl, iff_of_true rfl h1,
      iff_of_false (by simp) (fun hc => hc.2 h1),
      iff_of_false (by simp) (fun hc => hc.1 h1)⟩
  · exact ⟨Or.inr (Or.inl rfl), iff_of_false (by simp) h1,
      iff_of_true rfl ⟨h2, h1⟩,
      iff_of_false (by simp) (fun hc => hc.2 h2)⟩
  · exact ⟨Or.inr (Or.inr rfl), iff_of_false (by simp) h1,
      iff_of_false (by simp) (fun hc => h2 hc.1),
      iff_of_true rfl ⟨h1, h2⟩⟩

/-- Witness for C3: a concrete inbound transaction (recipient matches the
queried address up to case). -/
theorem c3_determineDirection_characterization_witness :
    WalletHistory.determineDirection (jsToLower "0xAbC") (some "0xdef")
      (some "0XABC") = WalletHistory.TxDirection.inbound :=
  (c3_determineDirection_characterization "0xAbC" (some "0xdef")
      (some "0XABC")).2.1.mpr (by decide)

/-- C10: the insight generator always returns between one and four
insights; below the epsilon net worth it returns exactly the no-balance
notice; otherwise it returns the four rules' lists appended in fixed
order, where the momentum rule contributes exactly one insight and the
stablecoin, concentration and conservative-stance rules contribute zero or
one each. -/
theorem c10_buildInsights_shape (tokens : List AnalyzeWallet.AnalysisToken)
    (netWorth netWorthChange netWorthChangePct : ℚ)
    (riskLevel : AnalyzeWallet.RiskLevel) :
    1 ≤ (AnalyzeWallet.buildInsights tokens netWorth netWorthChange
          netWorthChangePct riskLevel).length ∧
    (AnalyzeWallet.buildInsights tokens netWorth netWorthChange
        netWorthChangePct riskLevel).length ≤ 4 ∧
    (netWorth < AnalyzeWallet.VALUE_EPSILON →
      AnalyzeWallet.buildInsights tokens netWorth netWorthChange
        netWorthChangePct riskLevel = [AnalyzeWallet.noBalanceInsight]) ∧
    (¬ netWorth < AnalyzeWallet.VALUE_EPSILON →
      AnalyzeWallet.buildInsights tokens netWorth netWorthChange
          netWorthChangePct riskLevel =
        AnalyzeWallet.stableReserveInsights tokens netWorth
          ++ AnalyzeWallet.concentrationInsights tokens
          ++ AnalyzeWallet.momentumInsights netWorthChange netWorthChangePct
          ++ AnalyzeWallet.conservativeInsights riskLevel netWorthChange ∧
      (AnalyzeWallet.momentumInsights netWorthChange netWorthChangePct).length = 1 ∧
      (AnalyzeWallet.stableReserveInsights tokens netWorth).length ≤ 1 ∧
      (AnalyzeWallet.concentrationInsights tokens).length ≤ 1 ∧
      (AnalyzeWallet.conservativeInsights riskLevel netWorthChange).length ≤ 1) := by
  by_cases h : netWorth < AnalyzeWallet.VALUE_EPSILON
  · refine ⟨?_, ?_, fun _ => ?_, fun hc => absurd h hc⟩ <;>
      simp [AnalyzeWallet.buildInsights, h]
  · have hb : AnalyzeWallet.buildInsights tokens netWorth netWorthChange
        netWorthChangePct riskLevel =
        AnalyzeWallet.stableReserveInsights tokens netWorth
          ++ AnalyzeWallet.concentrationInsights tokens
          ++ AnalyzeWallet.momentumInsights netWorthChange netWorthChangePct
          ++ AnalyzeWallet.conservativeInsights riskLevel netWorthChange := by
      simp [AnalyzeWallet.buildInsights, h]
    have h1 := stableReserveInsights_length tokens netWorth
    have h2 := concentrationInsights_length tokens
    have h3 := momentumInsights_length netWorthChange netWorthChangePct
    have h4 := conservativeInsights_length riskLevel netWorthChange
    refine ⟨?_, ?_, fun hc => absurd hc h,
      fun _ => ⟨hb, h3, h1, h2, h4⟩⟩ <;>
      · rw [hb]
        simp only [List.length_append]
        omega

/-- Witness for C10: a wallet with zero net worth yields exactly the
no-balance insight. -/
theorem c10_buildInsights_shape_witness :
    AnalyzeWallet.buildInsights [] 0 0 0 AnalyzeWallet.RiskLevel.Moderate =
      [AnalyzeWallet.noBalanceInsight] :=
  (c10_buildInsights_shape [] 0 0 0 AnalyzeWallet.RiskLevel.Moderate).2.2.1
    (by norm_num [AnalyzeWallet.VALUE_EPSILON])

theorem sumValueUsd_foldl (l : List AnalyzeWallet.AnalysisToken) :
    ∀ a : ℚ, l.foldl (fun acc t => acc + t.valueUsd) a =
      a + (l.map (fun t => t.valueUsd)).sum := by
  induction l with
  | nil => intro a; simp
  | cons t rest ih =>
      intro a
      rw [List.foldl_cons, ih, List.map_cons, List.sum_cons]
      ring

theorem sumValueUsd_eq_sum_map (l : List AnalyzeWallet.AnalysisToken) :
    AnalyzeWallet.sumValueUsd l = (l.map (fun t => t.valueUsd)).sum := by
  unfold AnalyzeWallet.sumValueUsd
  rw [sumValueUsd_foldl]
  ring

theorem map_valueUsd_allocUpdate (l : List AnalyzeWallet.AnalysisToken)
    (c : ℚ) :
    ((l.map (fun t =>
        { t with allocationPct := t.valueUsd / c * 100 })).map
      (fun t => t.valueUsd)) = l.map (fun t => t.valueUsd) := by
  induction l with
  | nil => rfl
  | cons t rest ih => simp [ih]

theorem map_allocationPct_allocUpdate (l : List AnalyzeWallet.AnalysisToken)
    (c : ℚ) :
    ((l.map (fun t =>
        { t with allocationPct := t.valueUsd / c * 100 })).map
      (fun t => t.allocationPct)) =
      (l.map (fun t => t.valueUsd)).map (fun v => v / c * 100) := by
  induction l with
  | nil => rfl
  | cons t rest ih => simp [ih]

theorem sum_map_div_mul (l : List ℚ) (c : ℚ) :
    (l.map (fun v => v / c * 100)).sum = l.sum / c * 100 := by
  induction l with
  | nil => simp
  | cons v rest ih =>
      simp only [List.map_cons, List.sum_cons, ih]
      ring

theorem mkToken_allocationPct_zero (priceMap : List (String × ℚ))
    (holding : CoinbaseBalanceResource) (t : AnalyzeWallet.AnalysisToken)
    (h : AnalyzeWallet.mkToken priceMap holding = some t) :
    t.allocationPct = 0 := by
  simp only [AnalyzeWallet.mkToken] at h
  split_ifs at h <;>
    first
      | exact Option.noConfusion h
      | (injection h with h2; subst h2; rfl)

theorem mem_insertKey (seen : List String) (key a : String) :
    a ∈ insertKey seen key ↔ a ∈ seen ∨ a = key := by
  unfold insertKey
  split_ifs with hc
  · have hk : key ∈ seen := by simpa [List.contains, List.elem_iff] using hc
    constructor
    · exact fun h => Or.inl h
    · rintro (h | rfl)
      · exact h
      · exact hk
  · simp

theorem nodup_insertKey (seen : List String) (key : String)
    (h : seen.Nodup) : (insertKey seen key).Nodup := by
  unfold insertKey
  split_ifs with hc
  · exact h
  · have hk : key ∉ seen := by simpa [List.contains, List.elem_iff] using hc
    simp [List.nodup_append, h, hk]

theorem mem_keyFold (keys : List String) :
    ∀ seen a, a ∈ keyFold keys seen ↔ a ∈ seen ∨ a ∈ keys := by
  induction keys with
  | nil => intro seen a; simp [keyFold]
  | cons k rest ih =>
      intro seen a
      show a ∈ keyFold rest (insertKey seen k) ↔ _
      rw [ih, mem_insertKey]
      simp only [List.mem_cons]
      tauto

theorem nodup_keyFold (keys : List String) :
    ∀ seen, seen.Nodup → (keyFold keys seen).Nodup := by
  induction keys with
  | nil => intro seen h; exact h
  | cons k rest ih =>
      intro seen h
      exact ih (insertKey seen k) (nodup_insertKey seen k h)

theorem length_keyFold_nil (keys : List String) :
    (keyFold keys []).length = keys.dedup.length := by
  have h1 : (keyFold keys []).Nodup := nodup_keyFold keys [] (by simp)
  have h2 : List.Perm (keyFold keys []) keys.dedup := by
    refine List.perm_of_nodup_nodup_toFinset_eq h1 (List.nodup_dedup keys) ?_
    ext a
    simp [List.mem_toFinset, mem_keyFold, List.mem_dedup]
  exact h2.length_eq.trans rfl

theorem dedupeKey_update (networkId : String)
    (tx : CoinbaseTransactionResource) :
    Coinbase.dedupeKey networkId
        { tx with network_id := some (tx.network_id.getD networkId) } =
      Coinbase.dedupeKey networkId tx := rfl

theorem processTx_of_contains (networkId : String)
    (st : List CoinbaseTransactionResource × List String)
    (tx : CoinbaseTransactionResource)
    (hc : st.2.contains (Coinbase.dedupeKey networkId tx) = true) :
    Coinbase.processTx networkId st tx = st :=
  if_pos hc

theorem processTx_of_not_contains (networkId : String)
    (st : List CoinbaseTransactionResource × List String)
    (tx : CoinbaseTransactionResource)
    (hc : ¬ st.2.contains (Coinbase.dedupeKey networkId tx) = true) :
    Coinbase.processTx networkId st tx =
      (st.1 ++ [{ tx with
          network_id := some (tx.network_id.getD networkId) }],
       st.2 ++ [Coinbase.dedupeKey networkId tx]) :=
  if_neg hc

theorem insertKey_of_contains (seen : List String) (key : String)
    (hc : seen.contains key = true) : insertKey seen key = seen :=
  if_pos hc

theorem insertKey_of_not_contains (seen : List String) (key : String)
    (hc : ¬ seen.contains key = true) :
    insertKey seen key = seen ++ [key] :=
  if_neg hc

theorem processBatch_seen (networkId : String)
    (txs : List CoinbaseTransactionResource) :
    ∀ st : List CoinbaseTransactionResource × List String,
      (Coinbase.processBatch networkId txs st).2 =
        keyFold (txs.map (Coinbase.dedupeKey networkId)) st.2 := by
  induction txs with
  | nil => intro st; rfl
  | cons tx rest ih =>
      intro st
      simp only [Coinbase.processBatch, List.foldl_cons, List.map_cons,
        keyFold] at *
      by_cases hc : st.2.contains (Coinbase.dedupeKey networkId tx) = true
      · rw [processTx_of_contains networkId st tx hc,
          insertKey_of_contains st.2 _ hc]
        exact ih st
      · rw [processTx_of_not_contains networkId st tx hc,
          insertKey_of_not_contains st.2 _ hc]
        exact ih _

theorem processBatch_items_keys (networkId : String)
    (txs : List CoinbaseTransactionResource) :
    ∀ st : List CoinbaseTransactionResource × List String,
      st.1.map (Coinbase.dedupeKey networkId) = st.2 →
      (Coinbase.processBatch networkId txs st).1.map
          (Coinbase.dedupeKey networkId) =
        (Coinbase.processBatch networkId txs st).2 := by
  induction txs with
  | nil => intro st h; exact h
  | cons tx rest ih =>
      intro st h
      simp only [Coinbase.processBatch, List.foldl_cons] at *
      by_cases hc : st.2.contains (Coinbase.dedupeKey networkId tx) = true
      · rw [processTx_of_contains networkId st tx hc]
        exact ih st h
      · rw [processTx_of_not_contains networkId st tx hc]
        refine ih _ ?_
        simp only [List.map_append, h, List.map_cons, List.map_nil,
          dedupeKey_update]

/-- C4: within one fetch cycle of a network, the dedup step guarantees
that no two emitted records share a deduplication key, and a batch of M
raw records covering N distinct keys yields exactly N records; in
particular the two-record scenario sharing hash "0xabc" yields exactly one
output record. -/
theorem c4_dedup_invariant (networkId : String)
    (txs : List CoinbaseTransactionResource) :
    ((Coinbase.processBatch networkId txs ([], [])).1.map
        (Coinbase.dedupeKey networkId)).Nodup ∧
    (Coinbase.processBatch networkId txs ([], [])).1.length =
      (txs.map (Coinbase.dedupeKey networkId)).dedup.length ∧
    (Coinbase.processBatch "eth" [c4Raw1, c4Raw2] ([], [])).1.length = 1 := by
  have hseen := processBatch_seen networkId txs ([], [])
  have hkeys := processBatch_items_keys networkId txs ([], []) rfl
  refine ⟨?_, ?_, by decide⟩
  · rw [hkeys, hseen]
    exact nodup_keyFold _ [] (by simp)
  · have hlen : (Coinbase.processBatch networkId txs ([], [])).1.length =
        ((Coinbase.processBatch networkId txs ([], [])).1.map
          (Coinbase.dedupeKey networkId)).length := by
      simp
    rw [hlen, hkeys, hseen]
    exact length_keyFold_nil _

/-- C2: for every raw-holdings input, the token list produced by the
balance normalizer has allocation percentages that sum to 100 (within
1e-6; in the rational model exactly) and each equals the token's USD value
divided by the total times 100 whenever the total exceeds epsilon; when
the total is at most epsilon every allocation percentage is 0. -/
theorem c2_buildTokens_allocation_invariant
    (holdings : List CoinbaseBalanceResource)
    (priceMap : List (String × ℚ)) :
    (AnalyzeWallet.VALUE_EPSILON <
        AnalyzeWallet.sumValueUsd (AnalyzeWallet.buildTokens holdings priceMap) →
      |((AnalyzeWallet.buildTokens holdings priceMap).map
          (fun t => t.allocationPct)).sum - 100| ≤ 1 / 1000000 ∧
      ∀ t ∈ AnalyzeWallet.buildTokens holdings priceMap,
        t.allocationPct = t.valueUsd /
          AnalyzeWallet.sumValueUsd (AnalyzeWallet.buildTokens holdings priceMap)
          * 100) ∧
    (AnalyzeWallet.sumValueUsd (AnalyzeWallet.buildTokens holdings priceMap) ≤
        AnalyzeWallet.VALUE_EPSILON →
      ∀ t ∈ AnalyzeWallet.buildTokens holdings priceMap,
        t.allocationPct = 0) := by
  simp only [AnalyzeWallet.buildTokens]
  generalize hbase :
    (holdings.filterMap (AnalyzeWallet.mkToken priceMap)).insertionSort
      (fun a b => b.valueUsd ≤ a.valueUsd) = base
  have hz : ∀ t ∈ base, t.allocationPct = 0 := by
    intro t ht
    rw [← hbase, List.mem_insertionSort] at ht
    obtain ⟨holding, _, heq⟩ := List.mem_filterMap.mp ht
    exact mkToken_allocationPct_zero priceMap holding t heq
  by_cases h : AnalyzeWallet.VALUE_EPSILON < AnalyzeWallet.sumValueUsd base
  · rw [if_pos h]
    have hS0 : (0 : ℚ) < AnalyzeWallet.sumValueUsd base :=
      lt_trans (by norm_num [AnalyzeWallet.VALUE_EPSILON]) h
    have hSne : AnalyzeWallet.sumValueUsd base ≠ 0 := ne_of_gt hS0
    have hv : ((base.map (fun t =>
        { t with allocationPct :=
            t.valueUsd / AnalyzeWallet.sumValueUsd base * 100 })).map
        (fun t => t.valueUsd)) = base.map (fun t => t.valueUsd) :=
      map_valueUsd_allocUpdate base _
    have hsum : AnalyzeWallet.sumValueUsd
        (base.map (fun t =>
          { t with allocationPct :=
              t.valueUsd / AnalyzeWallet.sumValueUsd base * 100 })) =
        AnalyzeWallet.sumValueUsd base :=
      (sumValueUsd_eq_sum_map _).trans
        ((congrArg List.sum hv).trans (sumValueUsd_eq_sum_map base).symm)
    constructor
    · intro _
      constructor
      · rw [map_allocationPct_allocUpdate, sum_map_div_mul,
          ← sumValueUsd_eq_sum_map, div_self hSne]
        norm_num
      · intro t ht
        obtain ⟨t0, ht0, rfl⟩ := List.mem_map.mp ht
        rw [hsum]
      -- the updated record's allocation is definitionally valueUsd/S*100
    · intro hle
      rw [hsum] at hle
      exact absurd h (not_lt.mpr hle)
  · rw [if_neg h]
    exact ⟨fun hgt => absurd hgt h, fun _ => hz⟩

unseal Rat.add Rat.mul Rat.inv Rat.sub Rat.ofScientific in
/-- Witness for C2: a two-holding portfolio (6000 and 4000 USD) whose
allocations come out as valueUsd/total×100 (60 and 40). -/
theorem c2_buildTokens_allocation_invariant_witness :
    ∀ t ∈ AnalyzeWallet.buildTokens [c2Holding1, c2Holding2] [],
      t.allocationPct = t.valueUsd /
        AnalyzeWallet.sumValueUsd
          (AnalyzeWallet.buildTokens [c2Holding1, c2Holding2] []) * 100 :=
  ((c2_buildTokens_allocation_invariant [c2Holding1, c2Holding2] []).1
    (by decide)).2

/-- C5 counterexample: one chain succeeds (with an empty record list) and
another fails, yet the adapter surfaces the error instead of returning the
partial results of the successful chain. -/
theorem c5_partial_success_counterexample :
    Coinbase.combineSettled [Except.ok ([] : List ℕ), Except.error "boom"] =
        Except.error "boom" ∧
    Except.ok ([] : List ℕ) ∈
      [Except.ok ([] : List ℕ), Except.error "boom"] := by
  exact ⟨rfl, by simp⟩

/-- C5 amended: the adapter returns the concatenated successful results
whenever they are nonempty; when the collected results are empty it raises
the first encountered error if any chain failed (in particular when every
chain failed), and returns an empty success only when no chain failed. -/
theorem c5_combineSettled_amended {ε α : Type}
    (settlements : List (Except ε (List α))) :
    (Coinbase.settledResults settlements ≠ [] →
      Coinbase.combineSettled settlements =
        Except.ok (Coinbase.settledResults settlements)) ∧
    (∀ e, Coinbase.settledResults settlements = [] →
      (Coinbase.settledErrors settlements).head? = some e →
      Coinbase.combineSettled settlements = Except.error e) ∧
    (Coinbase.settledResults settlements = [] →
      Coinbase.settledErrors settlements = [] →
      Coinbase.combineSettled settlements = Except.ok []) ∧
    ((∀ s ∈ settlements, ∃ e, s = Except.error e) →
      ∀ e, (Coinbase.settledErrors settlements).head? = some e →
        Coinbase.combineSettled settlements = Except.error e) := by
  refine ⟨?_, ?_, ?_, ?_⟩
  · intro h
    unfold Coinbase.combineSettled
    cases hres : Coinbase.settledResults settlements with
    | nil => exact absurd hres h
    | cons r rs => cases Coinbase.settledErrors settlements <;> rfl
  · intro e hres herr
    unfold Coinbase.combineSettled
    rw [hres]
    cases herr2 : Coinbase.settledErrors settlements with
    | nil => rw [herr2] at herr; simp at herr
    | cons e1 es =>
        rw [herr2] at herr
        simp only [List.head?_cons, Option.some.injEq] at herr
        subst herr
        rfl
  · intro hres herr
    unfold Coinbase.combineSettled
    rw [hres, herr]
  · intro hall e herr
    have hres := settledResults_nil_of_all_error settlements hall
    unfold Coinbase.combineSettled
    rw [hres]
    cases herr2 : Coinbase.settledErrors settlements with
    | nil => rw [herr2] at herr; simp at herr
    | cons e1 es =>
        rw [herr2] at herr
        simp only [List.head?_cons, Option.some.injEq] at herr
        subst herr
        rfl

/-- Witness for C5 amended: a nonempty partial success is returned
despite failures, and an all-failure fan-out surfaces the first error. -/
theorem c5_combineSettled_amended_witness :
    Coinbase.combineSettled
        [Except.error "a", Except.ok ([42] : List ℕ), Except.error "b"] =
      Except.ok [42] ∧
    Coinbase.combineSettled
        ([Except.error "a", Except.error "b"] : List (Except String (List ℕ))) =
      Except.error "a" := by
  constructor
  · exact (c5_combineSettled_amended
      [Except.error "a", Except.ok ([42] : List ℕ), Except.error "b"]).1
      (by decide)
  · exact (c5_combineSettled_amended
      ([Except.error "a", Except.error "b"] : List (Except String (List ℕ)))).2.2.2
      (by intro s hs; fin_cases hs <;> exact ⟨_, rfl⟩) "a" rfl

theorem paginate_pages_le (provider : ℕ → Coinbase.CoinbaseTransactionResponse)
    (networkId : String) :
    ∀ (fuel reqIdx : ℕ) (cursor : Option String)
      (st : List CoinbaseTransactionResource × List String),
      (Coinbase.paginate provider networkId fuel reqIdx cursor st).2 ≤
        reqIdx + fuel := by
  intro fuel
  induction fuel with
  | zero => intro reqIdx cursor st; simp [Coinbase.paginate]
  | succ fuel ih =>
      intro reqIdx cursor st
      simp only [Coinbase.paginate]
      split
      · simp
      · split
        · simp
        · exact le_trans (ih _ _ _) (by omega)

theorem paginate_pages_ge (provider : ℕ → Coinbase.CoinbaseTransactionResponse)
    (networkId : String) :
    ∀ (fuel reqIdx : ℕ) (cursor : Option String)
      (st : List CoinbaseTransactionResource × List String),
      reqIdx ≤ (Coinbase.paginate provider networkId fuel reqIdx cursor st).2 := by
  intro fuel
  induction fuel with
  | zero => intro reqIdx cursor st; simp [Coinbase.paginate]
  | succ fuel ih =>
      intro reqIdx cursor st
      simp only [Coinbase.paginate]
      split
      · simp
      · split
        · simp
        · exact le_trans (by omega) (ih _ _ _)

/-- Starting fuel at least `26 - reqIdx` makes the fuel bound inert: the
loop's own safety counter stops it first, so the fuel-indexed model
computes the same result for every sufficient fuel. -/
theorem paginate_fuel_high (provider : ℕ → Coinbase.CoinbaseTransactionResponse)
    (networkId : String) :
    ∀ (fuel1 fuel2 reqIdx : ℕ) (cursor : Option String)
      (st : List CoinbaseTransactionResource × List String),
      25 - reqIdx < fuel1 → 25 - reqIdx < fuel2 →
      Coinbase.paginate provider networkId fuel1 reqIdx cursor st =
        Coinbase.paginate provider networkId fuel2 reqIdx cursor st := by
  intro fuel1
  induction fuel1 with
  | zero => intro fuel2 reqIdx cursor st h1 h2; omega
  | succ fuel1 ih =>
      intro fuel2 reqIdx cursor st h1 h2
      cases fuel2 with
      | zero => omega
      | succ fuel2 =>
          simp only [Coinbase.paginate]
          split
          · rfl
          · split
            · rfl
            · rename_i hsafe _ _
              exact ih fuel2 (reqIdx + 1) _ _ (by omega) (by omega)

/-- One unfolding of the pagination loop at positive fuel. -/
theorem paginate_succ (provider : ℕ → Coinbase.CoinbaseTransactionResponse)
    (networkId : String) (fuel reqIdx : ℕ) (cursor : Option String)
    (st : List CoinbaseTransactionResource × List String) :
    Coinbase.paginate provider networkId (fuel + 1) reqIdx cursor st =
      (let response := provider reqIdx
       let batch := response.data.getD []
       let st1 := Coinbase.processBatch networkId batch st
       let cursor1 :=
         Coinbase.advanceCursor (Coinbase.nextCursorOf response) cursor
       let safety := reqIdx + 1
       if 25 < safety then (st1.1, safety)
       else
         match cursor1 with
         | none => (st1.1, safety)
         | some c =>
             Coinbase.paginate provider networkId fuel (reqIdx + 1) (some c) st1) :=
  rfl

/-- C6 counterexample: against a provider that always returns a fresh
cursor, the pagination loop fetches 26 pages, not the 25 stated by the
claim (the loop breaks only once the safety counter exceeds 25). -/
theorem c6_pagination_ceiling_counterexample :
    (Coinbase.fetchTransactionsForNetwork c6AdvProvider "eth").2 = 26 ∧
    (26 : ℕ) ≠ 25 := by
  refine ⟨by decide, by decide⟩

theorem advanceCursor_self (cursor : Option String) :
    Coinbase.advanceCursor cursor cursor = none := by
  cases cursor with
  | none => rfl
  | some s => simp [Coinbase.advanceCursor]

theorem advanceCursor_eq_none (nextCursor cursor : Option String)
    (h : nextCursor = none ∨ nextCursor = some "" ∨ nextCursor = cursor) :
    Coinbase.advanceCursor nextCursor cursor = none := by
  rcases h with h | h | h
  · rw [h]; rfl
  · rw [h]; simp [Coinbase.advanceCursor]
  · rw [h]; exact advanceCursor_self cursor

/-- Whenever the response to the current request carries no next cursor,
an empty next cursor, or a cursor equal to the one just used, the loop
performs that one request and returns: the result is the items collected
through this page, and the page count advances by exactly one. -/
theorem paginate_stop (provider : ℕ → Coinbase.CoinbaseTransactionResponse)
    (networkId : String) (fuel reqIdx : ℕ) (cursor : Option String)
    (st : List CoinbaseTransactionResource × List String)
    (h : Coinbase.nextCursorOf (provider reqIdx) = none ∨
      Coinbase.nextCursorOf (provider reqIdx) = some "" ∨
      Coinbase.nextCursorOf (provider reqIdx) = cursor) :
    Coinbase.paginate provider networkId (fuel + 1) reqIdx cursor st =
      ((Coinbase.processBatch networkId ((provider reqIdx).data.getD []) st).1,
       reqIdx + 1) := by
  have hadv := advanceCursor_eq_none (Coinbase.nextCursorOf (provider reqIdx))
    cursor h
  rw [paginate_succ]
  dsimp only
  rw [hadv]
  split <;> rfl

theorem collectedAfter_shift
    (provider : ℕ → Coinbase.CoinbaseTransactionResponse)
    (networkId : String)
    (st : List CoinbaseTransactionResource × List String) (reqIdx : ℕ) :
    ∀ n, collectedAfter provider networkId st reqIdx (n + 1) =
      collectedAfter provider networkId
        (Coinbase.processBatch networkId ((provider reqIdx).data.getD []) st)
        (reqIdx + 1) n := by
  intro n
  induction n with
  | zero => simp [collectedAfter]
  | succ n ih =>
      have hidx : reqIdx + (n + 1) = reqIdx + 1 + n := by omega
      show Coinbase.processBatch networkId
          ((provider (reqIdx + (n + 1))).data.getD [])
          (collectedAfter provider networkId st reqIdx (n + 1)) =
        Coinbase.processBatch networkId
          ((provider (reqIdx + 1 + n)).data.getD [])
          (collectedAfter provider networkId
            (Coinbase.processBatch networkId ((provider reqIdx).data.getD [])
              st)
            (reqIdx + 1) n)
      rw [ih, hidx]

/-- The pagination loop returns exactly the items accumulated by
processing the batches of the pages it fetched. -/
theorem paginate_items (provider : ℕ → Coinbase.CoinbaseTransactionResponse)
    (networkId : String) :
    ∀ (fuel reqIdx : ℕ) (cursor : Option String)
      (st : List CoinbaseTransactionResource × List String),
      (Coinbase.paginate provider networkId fuel reqIdx cursor st).1 =
        (collectedAfter provider networkId st reqIdx
          ((Coinbase.paginate provider networkId fuel reqIdx cursor st).2 -
            reqIdx)).1 := by
  intro fuel
  induction fuel with
  | zero =>
      intro reqIdx cursor st
      simp [Coinbase.paginate, collectedAfter]
  | succ fuel ih =>
      intro reqIdx cursor st
      rw [paginate_succ]
      dsimp only
      split
      · simp [collectedAfter]
      · split
        · simp [collectedAfter]
        · rename_i c hceq
          have hge := paginate_pages_ge provider networkId fuel (reqIdx + 1)
            (some c)
            (Coinbase.processBatch networkId ((provider reqIdx).data.getD [])
              st)
          have hcount :
              (Coinbase.paginate provider networkId fuel (reqIdx + 1) (some c)
                (Coinbase.processBatch networkId
                  ((provider reqIdx).data.getD []) st)).2 - reqIdx =
              ((Coinbase.paginate provider networkId fuel (reqIdx + 1) (some c)
                (Coinbase.processBatch networkId
                  ((provider reqIdx).data.getD []) st)).2 - (reqIdx + 1)) + 1 :=
            by omega
          rw [ih, hcount, collectedAfter_shift]

/-- C6 amended: the pagination loop always terminates and returns the
items collected up to the point it stops: it performs at least one and at
most 26 requests (the safety counter must exceed 25 before the loop
breaks, so a provider that always returns a fresh cursor is fetched for
26 pages, not 25); the items returned are exactly those accumulated over
the pages fetched; and at any point of any run, as soon as the provider
reports no next cursor, an empty next cursor, or a cursor equal to the
cursor just used, the loop makes no further request and returns the items
collected through that page. -/
theorem c6_pagination_termination_amended
    (provider : ℕ → Coinbase.CoinbaseTransactionResponse)
    (networkId : String) :
    (1 ≤ (Coinbase.fetchTransactionsForNetwork provider networkId).2 ∧
     (Coinbase.fetchTransactionsForNetwork provider networkId).2 ≤ 26) ∧
    (Coinbase.fetchTransactionsForNetwork provider networkId).1 =
      (collectedAfter provider networkId ([], []) 0
        (Coinbase.fetchTransactionsForNetwork provider networkId).2).1 ∧
    (∀ (fuel reqIdx : ℕ) (cursor : Option String)
      (st : List CoinbaseTransactionResource × List String),
      (Coinbase.nextCursorOf (provider reqIdx) = none ∨
       Coinbase.nextCursorOf (provider reqIdx) = some "" ∨
       Coinbase.nextCursorOf (provider reqIdx) = cursor) →
      Coinbase.paginate provider networkId (fuel + 1) reqIdx cursor st =
        ((Coinbase.processBatch networkId ((provider reqIdx).data.getD [])
            st).1,
         reqIdx + 1)) := by
  refine ⟨⟨?_, paginate_pages_le provider networkId 26 0 none ([], [])⟩,
    ?_, ?_⟩
  · unfold Coinbase.fetchTransactionsForNetwork
    show 1 ≤ (Coinbase.paginate provider networkId (25 + 1) 0 none ([], [])).2
    rw [paginate_succ]
    dsimp only
    split
    · simp
    · split
      · simp
      · exact le_trans (by omega) (paginate_pages_ge provider networkId _ _ _ _)
  · have h := paginate_items provider networkId 26 0 none ([], [])
    simpa using h
  · intro fuel reqIdx cursor st h
    exact paginate_stop provider networkId fuel reqIdx cursor st h

/-- Witness for C6 amended: against a provider that always answers with
the cursor "A", the run stops after the second page because the second
response's cursor equals the cursor just used, and the theorem's stop
clause applies concretely at that mid-run state. -/
theorem c6_pagination_termination_amended_witness :
    (Coinbase.fetchTransactionsForNetwork c6RepeatProvider "eth").2 = 2 ∧
    Coinbase.paginate c6RepeatProvider "eth" 25 1 (some "A") ([], []) =
      ((Coinbase.processBatch "eth" [] ([], [])).1, 2) := by
  constructor
  · decide
  · exact (c6_pagination_termination_amended c6RepeatProvider "eth").2.2
      24 1 (some "A") ([], []) (Or.inr (Or.inr rfl))

unseal Rat.add Rat.mul Rat.inv Rat.sub Rat.ofScientific in
/-- C7 counterexample: the holding reports a direct USD value of 50, yet
the normalizer uses the oracle price times the amount (2 × 10 = 20)
because the price-map branch takes precedence over the directly-reported
value, and the price key hardcodes the chain "ethereum" even though the
holding's own chain is "polygon". -/
theorem c7_usd_precedence_counterexample :
    AnalyzeWallet.extractUsdValue c7Holding = some 50 ∧
    c7Holding.network_id = some "polygon" ∧
    CoinGecko.buildPriceKey c7Holding = some "native:ethereum" ∧
    AnalyzeWallet.effectiveValueUsd c7Holding c7PriceMap = 20 ∧
    (20 : ℚ) ≠ 50 := by
  refine ⟨by decide, rfl, rfl, by decide, by decide⟩

/-- C7 amended: the per-holding USD value resolution of `buildTokens`
gives first precedence to the price-oracle price (looked up under a key
that hardcodes the chain "ethereum") multiplied by the resolved amount,
whenever a price is mapped and the amount exceeds epsilon; only otherwise
is the directly-reported USD value used, and zero when neither source
applies. -/
theorem c7_usd_precedence_amended (holding : CoinbaseBalanceResource)
    (priceMap : List (String × ℚ)) :
    (∀ p, AnalyzeWallet.getPriceForHolding holding priceMap = some p →
      AnalyzeWallet.hasMeaningfulAmount
        (AnalyzeWallet.resolveAmount holding
          (AnalyzeWallet.resolveDecimals holding)) = true →
      AnalyzeWallet.effectiveValueUsd holding priceMap =
        p * (AnalyzeWallet.resolveAmount holding
              (AnalyzeWallet.resolveDecimals holding)).getD 0) ∧
    ((AnalyzeWallet.getPriceForHolding holding priceMap = none ∨
      AnalyzeWallet.hasMeaningfulAmount
        (AnalyzeWallet.resolveAmount holding
          (AnalyzeWallet.resolveDecimals holding)) = false) →
      (∀ v, AnalyzeWallet.extractUsdValue holding = some v →
        AnalyzeWallet.effectiveValueUsd holding priceMap = v) ∧
      (AnalyzeWallet.extractUsdValue holding = none →
        AnalyzeWallet.effectiveValueUsd holding priceMap = 0)) := by
  constructor
  · intro p hp hm
    simp only [AnalyzeWallet.effectiveValueUsd, hp, hm, if_true]
  · intro h
    constructor
    · intro v hv
      rcases h with hp | hm
      · simp only [AnalyzeWallet.effectiveValueUsd, hp, hv, Option.getD_some]
      · cases hpp : AnalyzeWallet.getPriceForHolding holding priceMap <;>
          simp only [AnalyzeWallet.effectiveValueUsd, hpp, hm, hv,
            Option.getD_some, Bool.false_eq_true, if_false]
    · intro hv
      rcases h with hp | hm
      · simp only [AnalyzeWallet.effectiveValueUsd, hp, hv, Option.getD_none]
      · cases hpp : AnalyzeWallet.getPriceForHolding holding priceMap <;>
          simp only [AnalyzeWallet.effectiveValueUsd, hpp, hm, hv,
            Option.getD_none, Bool.false_eq_true, if_false]

unseal Rat.add Rat.mul Rat.inv Rat.sub Rat.ofScientific in
/-- Witness for C7 amended: on the counterexample holding the price branch
fires and yields 2 × 10 = 20. -/
theorem c7_usd_precedence_amended_witness :
    AnalyzeWallet.effectiveValueUsd c7Holding c7PriceMap = 20 :=
  ((c7_usd_precedence_amended c7Holding c7PriceMap).1 2 (by decide)
    (by decide)).trans (by decide)

/-- C8 counterexample: normalizing the same raw payload at two different
wall-clock instants yields different records (the timestamp fallback reads
the clock, which is not an explicit parameter of the source function). -/
theorem c8_wallclock_counterexample :
    WalletHistory.normalizeTransaction c8NoTimestampItem "0xme"
        "2024-01-01T00:00:00.000Z" ≠
      WalletHistory.normalizeTransaction c8NoTimestampItem "0xme"
        "2024-01-02T00:00:00.000Z" := by
  decide

theorem resolveTimestamp_clock_free (item : CoinbaseTransactionResource)
    (now1 now2 : String)
    (h : (item.content.bind (·.block_timestamp)).isSome ∨
      item.block_timestamp.isSome) :
    WalletHistory.resolveTimestamp item item.content now1 =
      WalletHistory.resolveTimestamp item item.content now2 := by
  unfold WalletHistory.resolveTimestamp
  rcases h with h | h
  · obtain ⟨t, ht⟩ := Option.isSome_iff_exists.mp h
    rw [ht]
  · obtain ⟨t, ht⟩ := Option.isSome_iff_exists.mp h
    cases hc : item.content.bind (·.block_timestamp) <;> rw [ht]

/-- C8 amended: the transaction normalizer is a pure function of the raw
payload, the queried address and the wall-clock instant; in particular,
whenever the raw payload carries a block timestamp (in its content or at
top level), the result does not depend on the clock at all.  As the claim
stands it fails, because the source reads `new Date()` internally rather
than receiving the time as a parameter (see the counterexample). -/
theorem c8_normalize_deterministic_amended
    (item : CoinbaseTransactionResource) (normalizedAddress now1 now2 : String)
    (h : (item.content.bind (·.block_timestamp)).isSome ∨
      item.block_timestamp.isSome) :
    WalletHistory.normalizeTransaction item normalizedAddress now1 =
      WalletHistory.normalizeTransaction item normalizedAddress now2 := by
  have ht := resolveTimestamp_clock_free item now1 now2 h
  unfold WalletHistory.normalizeTransaction
  simp only [WalletHistory.extractContent]
  rw [ht]

/-- Witness for C8 amended: with an explicit block timestamp the result is
clock-independent. -/
theorem c8_normalize_deterministic_amended_witness :
    WalletHistory.normalizeTransaction c8TimestampedItem "0xme" "A" =
      WalletHistory.normalizeTransaction c8TimestampedItem "0xme" "B" :=
  c8_normalize_deterministic_amended c8TimestampedItem "0xme" "A" "B"
    (Or.inr (by decide))

/-- C9 counterexample: a hash candidate that is a non-empty (but
whitespace-only) string is rejected by the trim check, so the normalizer
returns null even though a non-empty string candidate exists. -/
theorem c9_blank_hash_counterexample :
    c9BlankHashItem.hash = some " " ∧ (" " : String) ≠ "" ∧
    WalletHistory.normalizeTransaction c9BlankHashItem "0xme" "T" = none := by
  refine ⟨rfl, by decide, by decide⟩

theorem firstNonBlankString_eq_find (l : List (Option JsPrim)) :
    WalletHistory.firstNonBlankString l =
      (l.find? isNonBlankStringCandidate).bind candidateString := by
  induction l with
  | nil => rfl
  | cons c rest ih =>
      cases c with
      | none =>
          simpa [WalletHistory.firstNonBlankString, isNonBlankStringCandidate,
            List.find?] using ih
      | some p =>
          cases p with
          | num q =>
              simpa [WalletHistory.firstNonBlankString,
                isNonBlankStringCandidate, List.find?] using ih
          | str s =>
              by_cases h : jsTrim s = ""
              · simpa [WalletHistory.firstNonBlankString,
                  isNonBlankStringCandidate, List.find?, h] using ih
              · have hb : (jsTrim s != "") = true := bne_iff_ne.mpr h
                simp [WalletHistory.firstNonBlankString,
                  isNonBlankStringCandidate, List.find?, h, hb,
                  candidateString]

theorem normalizeTransaction_eq_none_iff (item : CoinbaseTransactionResource)
    (normalizedAddress now : String) :
    WalletHistory.normalizeTransaction item normalizedAddress now = none ↔
      WalletHistory.selectHash item item.content = none := by
  cases hs : WalletHistory.selectHash item item.content with
  | none =>
      simp [WalletHistory.normalizeTransaction, WalletHistory.extractContent,
        hs]
  | some h =>
      simp [WalletHistory.normalizeTransaction, WalletHistory.extractContent,
        hs]

theorem normalizeTransaction_hash (item : CoinbaseTransactionResource)
    (normalizedAddress now : String) (tx : WalletHistory.WalletTransaction)
    (htx : WalletHistory.normalizeTransaction item normalizedAddress now =
      some tx) :
    WalletHistory.selectHash item item.content = some tx.hash := by
  cases hs : WalletHistory.selectHash item item.content with
  | none =>
      rw [WalletHistory.normalizeTransaction, WalletHistory.extractContent]
        at htx
      simp [hs] at htx
  | some h =>
      simp only [WalletHistory.normalizeTransaction,
        WalletHistory.extractContent, hs, Option.some.injEq] at htx
      rw [← htx]

/-- C9 amended: the transaction normalizer returns null exactly when no
candidate in the hash resolution chain (primary hash, alternate hash,
nested-content hash, metadata-embedded hash, block hash) is a string that
is non-blank after trimming; when such a candidate exists, a record is
produced whose hash is the first such candidate. -/
theorem c9_normalize_null_iff_amended (item : CoinbaseTransactionResource)
    (normalizedAddress now : String) :
    (WalletHistory.normalizeTransaction item normalizedAddress now = none ↔
      recoverableHash item = none) ∧
    (∀ tx, WalletHistory.normalizeTransaction item normalizedAddress now =
        some tx → recoverableHash item = some tx.hash) := by
  have hsel : WalletHistory.selectHash item item.content =
      recoverableHash item :=
    firstNonBlankString_eq_find (WalletHistory.hashCandidates item item.content)
  constructor
  · rw [normalizeTransaction_eq_none_iff item normalizedAddress now, hsel]
  · intro tx htx
    rw [← hsel]
    exact normalizeTransaction_hash item normalizedAddress now tx htx

/-- Witness for C9 amended: a raw transaction with no usable candidate at
all normalizes to null. -/
theorem c9_normalize_null_iff_amended_witness :
    WalletHistory.normalizeTransaction
      ({} : CoinbaseTransactionResource) "0xme" "T" = none :=
  (c9_normalize_null_iff_amended ({} : CoinbaseTransactionResource)
    "0xme" "T").1.mpr (by decide)

end WalletAnalyzer
